import Mathlib

/-!
Verification development for the geohash-pair API-comparison scripts
(`api_comparison_script.py` and `enhanced_comparison.py`).

The Python code is shallowly embedded: JSON-compatible values become the
inductive `JsonVal`; Python `dict`s (which preserve insertion order and
update-in-place on duplicate keys) become association lists resolved with
`upsert`; fallible Python operations become `Except PyErr` computations.

Modelling boundaries, stated once: JSON numbers (Python `int`/`float`) are
modelled as rationals, so the shortest-roundtrip decimal printing of
non-integral floats and the nonfinite literals accepted by `float()`
(`inf`, `nan`) are outside the modelled fragment; no claim below depends
on them.
-/

/-- A JSON-compatible Python value: `None`, `bool`, number, `str`,
`list`, or string-keyed `dict` (entries in insertion order). -/
inductive JsonVal where
  | null : JsonVal
  | bool : Bool → JsonVal
  | num : Rat → JsonVal
  | str : String → JsonVal
  | arr : List JsonVal → JsonVal
  | obj : List (String × JsonVal) → JsonVal
deriving Repr, Inhabited

/-- Python truthiness of a JSON-compatible value. -/
def truthy : JsonVal → Bool
  | .null => false
  | .bool b => b
  | .num q => q != 0
  | .str s => s != ""
  | .arr l => !l.isEmpty
  | .obj es => !es.isEmpty

/-- `m[k] = v` on an insertion-ordered dict: update the first binding of
`k` in place, or append a new binding at the end. -/
def upsert (m : List (String × JsonVal)) (k : String) (v : JsonVal) :
    List (String × JsonVal) :=
  match m with
  | [] => [(k, v)]
  | (k', v') :: t => if k' = k then (k', v) :: t else (k', v') :: upsert t k v

/-- Python `m.update(l)` where `l` is the pair stream of another dict. -/
def pyUpdate (m l : List (String × JsonVal)) : List (String × JsonVal) :=
  l.foldl (fun acc kv => upsert acc kv.1 kv.2) m

/-- Python `dict(items)`: fold a raw (possibly duplicated) pair stream
into an insertion-ordered duplicate-free dict. -/
def dictOfItems (l : List (String × JsonVal)) : List (String × JsonVal) :=
  pyUpdate [] l

/-- Lookup of a key in an insertion-ordered dict. -/
def getVal (m : List (String × JsonVal)) (k : String) : Option JsonVal :=
  match m with
  | [] => none
  | (k', v) :: t => if k' = k then some v else getVal t k

/-- Python `m.get(k, dflt)` on a real dict value. -/
def getValD (m : List (String × JsonVal)) (k : String) (dflt : JsonVal) : JsonVal :=
  (getVal m k).getD dflt

/-- Python `k in m` for a dict. -/
def hasKey (m : List (String × JsonVal)) (k : String) : Bool :=
  (getVal m k).isSome

/-- The keys of a dict, in order. -/
def keysOf (m : List (String × JsonVal)) : List String :=
  m.map Prod.fst

/-- JSON string escaping for one character (the fragment exercised by the
scripts; `ensure_ascii` escaping of non-ASCII characters is not modelled). -/
def escapeChar (c : Char) : String :=
  if c = '"' then "\\\""
  else if c = '\\' then "\\\\"
  else if c = '\n' then "\\n"
  else if c = '\t' then "\\t"
  else if c = '\r' then "\\r"
  else String.singleton c

/-- JSON string escaping. -/
def escapeStr (s : String) : String :=
  String.join (s.toList.map escapeChar)

/-- Decimal rendering of a JSON number; exact for integers, which is the
only case the claims observe. -/
def numRepr (q : Rat) : String :=
  if q.den = 1 then toString q.num else toString q

mutual

/-- Python `json.dumps` with its default separators. -/
def dumps : JsonVal → String
  | .null => "null"
  | .bool true => "true"
  | .bool false => "false"
  | .num q => numRepr q
  | .str s => "\"" ++ escapeStr s ++ "\""
  | .arr l => "[" ++ dumpsElems l ++ "]"
  | .obj es => "\x7b" ++ dumpsFields es ++ "\x7d"

/-- Array elements joined by `", "`. -/
def dumpsElems : List JsonVal → String
  | [] => ""
  | [v] => dumps v
  | v :: w :: rest => dumps v ++ ", " ++ dumpsElems (w :: rest)

/-- Object fields joined by `", "` with `": "` between key and value. -/
def dumpsFields : List (String × JsonVal) → String
  | [] => ""
  | [(k, v)] => "\"" ++ escapeStr k ++ "\": " ++ dumps v
  | (k, v) :: f :: rest =>
    "\"" ++ escapeStr k ++ "\": " ++ dumps v ++ ", " ++ dumpsFields (f :: rest)

end

/-- The guard `v and isinstance(v[0], dict)` of both flatteners. -/
def isObjHead : List JsonVal → Bool
  | .obj _ :: _ => true
  | _ => false

mutual

/-- The raw `items` stream accumulated by
`EnhancedAPIComparison.flatten_dict` before the final `dict(items)`:
nested dicts and dict-headed lists contribute the pair streams of their
already-resolved recursive flattenings. -/
def fdItems (d : JsonVal) (parentKey : String) (sep : String) :
    List (String × JsonVal) :=
  match d with
  | .obj entries => fdEntries entries parentKey sep
  | _ => []

/-- One pass of the `for k, v in d.items()` loop of `flatten_dict`. -/
def fdEntries (entries : List (String × JsonVal)) (parentKey : String)
    (sep : String) : List (String × JsonVal) :=
  match entries with
  | [] => []
  | (k, v) :: rest =>
    let newKey := if parentKey = "" then k else parentKey ++ sep ++ k
    (match v with
     | .obj es => dictOfItems (fdItems (.obj es) newKey sep)
     | .arr l =>
       if isObjHead l then fdList l 0 newKey sep
       else [(newKey, .str (dumps (.arr l)))]
     | other => [(newKey, other)]) ++ fdEntries rest parentKey sep

/-- The `for i, item in enumerate(v)` loop of `flatten_dict`. -/
def fdList (l : List JsonVal) (i : Nat) (newKey : String) (sep : String) :
    List (String × JsonVal) :=
  match l with
  | [] => []
  | item :: rest =>
    dictOfItems (fdItems item (newKey ++ sep ++ toString i) sep) ++
      fdList rest (i + 1) newKey sep

end

/-- `EnhancedAPIComparison.flatten_dict(d, parent_key, sep)`: build the
raw item stream and resolve it with `dict(items)`. -/
def flatten_dict (d : JsonVal) (parentKey : String) (sep : String) :
    List (String × JsonVal) :=
  dictOfItems (fdItems d parentKey sep)

mutual

/-- `GoogleAPIComparison.flatten_json(data, prefix)`: a non-dict input is
wrapped as `{prefix: data}`; a dict is folded into an accumulator dict by
in-place `update`/assignment. -/
def flatten_json (data : JsonVal) (pfx : String) : List (String × JsonVal) :=
  match data with
  | .obj entries => fjEntries entries pfx []
  | other => [(pfx, other)]

/-- The `for key, value in data.items()` loop of `flatten_json`, with the
mutable `flattened` dict threaded as `acc`. -/
def fjEntries (entries : List (String × JsonVal)) (pfx : String)
    (acc : List (String × JsonVal)) : List (String × JsonVal) :=
  match entries with
  | [] => acc
  | (k, v) :: rest =>
    let newKey := if pfx = "" then k else pfx ++ "_" ++ k
    let acc' := match v with
      | .obj es => pyUpdate acc (flatten_json (.obj es) newKey)
      | .arr l =>
        if isObjHead l then fjList l 0 newKey acc
        else upsert acc newKey (.str (dumps (.arr l)))
      | other => upsert acc newKey other
    fjEntries rest pfx acc'

/-- The `for i, item in enumerate(value)` loop of `flatten_json`. -/
def fjList (l : List JsonVal) (i : Nat) (newKey : String)
    (acc : List (String × JsonVal)) : List (String × JsonVal) :=
  match l with
  | [] => acc
  | item :: rest =>
    fjList rest (i + 1) newKey
      (pyUpdate acc (flatten_json item (newKey ++ "_" ++ toString i)))

end

mutual

/-- A value is uniform when every sequence reached by the flatteners whose
first element is a mapping consists of mappings only (the case where the
two implementations agree element-wise). -/
def uniformV : JsonVal → Bool
  | .obj es => uniformEs es
  | .arr l => if isObjHead l then uniformL l else true
  | _ => true

/-- Uniformity of a dict's entries. -/
def uniformEs : List (String × JsonVal) → Bool
  | [] => true
  | (_, v) :: rest => uniformV v && uniformEs rest

/-- Every element of a mapping-headed sequence is itself a uniform mapping. -/
def uniformL : List JsonVal → Bool
  | [] => true
  | item :: rest =>
    (match item with
     | .obj es => uniformEs es
     | _ => false) && uniformL rest

end

mutual

/-- The fully raw key/value stream of `flatten_dict`: like `fdItems` but
without any intermediate `dict()` resolution, so that duplicated composite
keys stay visible at every level. -/
def rawItems (d : JsonVal) (parentKey : String) (sep : String) :
    List (String × JsonVal) :=
  match d with
  | .obj entries => rawEntries entries parentKey sep
  | _ => []

/-- Raw stream of a dict's entries. -/
def rawEntries (entries : List (String × JsonVal)) (parentKey : String)
    (sep : String) : List (String × JsonVal) :=
  match entries with
  | [] => []
  | (k, v) :: rest =>
    let newKey := if parentKey = "" then k else parentKey ++ sep ++ k
    (match v with
     | .obj es => rawItems (.obj es) newKey sep
     | .arr l =>
       if isObjHead l then rawList l 0 newKey sep
       else [(newKey, .str (dumps (.arr l)))]
     | other => [(newKey, other)]) ++ rawEntries rest parentKey sep

/-- Raw stream of a mapping-headed sequence. -/
def rawList (l : List JsonVal) (i : Nat) (newKey : String) (sep : String) :
    List (String × JsonVal) :=
  match l with
  | [] => []
  | item :: rest =>
    rawItems item (newKey ++ sep ++ toString i) sep ++
      rawList rest (i + 1) newKey sep

end

mutual

/-- The leaves of a response tree as the flattener sees them: a scalar, or
a whole serialized non-mapping-headed sequence; mappings and
mapping-headed sequences are traversed. -/
def leavesEs : List (String × JsonVal) → Multiset JsonVal
  | [] => 0
  | (_, v) :: rest =>
    (match v with
     | .obj es => leavesEs es
     | .arr l =>
       if isObjHead l then leavesL l else {.str (dumps (.arr l))}
     | other => {other}) + leavesEs rest

/-- Leaves contributed by a mapping-headed sequence (non-mapping elements
contribute nothing, exactly as the code drops them). -/
def leavesL : List JsonVal → Multiset JsonVal
  | [] => 0
  | item :: rest =>
    (match item with
     | .obj es => leavesEs es
     | _ => 0) + leavesL rest

end

/-- Leaves of a whole tree (a non-mapping root flattens to nothing). -/
def rootLeaves : JsonVal → Multiset JsonVal
  | .obj es => leavesEs es
  | _ => 0

mutual

/-- Nesting depth of a value: the number of stacked recursive flattening
calls it can cause. -/
def depthV : JsonVal → Nat
  | .obj es => 1 + depthEs es
  | .arr l => 1 + depthL l
  | _ => 0

/-- Maximum depth over a dict's values. -/
def depthEs : List (String × JsonVal) → Nat
  | [] => 0
  | (_, v) :: rest => max (depthV v) (depthEs rest)

/-- Maximum depth over a sequence's elements. -/
def depthL : List JsonVal → Nat
  | [] => 0
  | item :: rest => max (depthV item) (depthL rest)

end

mutual

/-- `flatten_dict` with an explicit stack budget: each recursive call
consumes one unit of fuel, and exhausted fuel is Python's
`RecursionError`.  All other operations of the function are total. -/
def fdFuel : Nat → JsonVal → String → String →
    Except String (List (String × JsonVal))
  | 0, _, _, _ => .error "RecursionError: maximum recursion depth exceeded"
  | Nat.succ f, d, pk, sep =>
    match d with
    | .obj entries => (fdEntriesFuel f entries pk sep).map dictOfItems
    | _ => .ok []

/-- Fuel-indexed `for k, v in d.items()` loop of `flatten_dict`. -/
def fdEntriesFuel : Nat → List (String × JsonVal) → String → String →
    Except String (List (String × JsonVal))
  | _, [], _, _ => .ok []
  | f, (k, v) :: rest, pk, sep =>
    let newKey := if pk = "" then k else pk ++ sep ++ k
    match v with
    | .obj es => do
      let sub ← fdFuel f (.obj es) newKey sep
      let tail ← fdEntriesFuel f rest pk sep
      .ok (sub ++ tail)
    | .arr l =>
      if isObjHead l then do
        let sub ← fdListFuel f l 0 newKey sep
        let tail ← fdEntriesFuel f rest pk sep
        .ok (sub ++ tail)
      else do
        let tail ← fdEntriesFuel f rest pk sep
        .ok ((newKey, .str (dumps (.arr l))) :: tail)
    | other => do
      let tail ← fdEntriesFuel f rest pk sep
      .ok ((newKey, other) :: tail)

/-- Fuel-indexed `enumerate` loop of `flatten_dict`. -/
def fdListFuel : Nat → List JsonVal → Nat → String → String →
    Except String (List (String × JsonVal))
  | _, [], _, _, _ => .ok []
  | f, item :: rest, i, newKey, sep => do
    let sub ← fdFuel f item (newKey ++ sep ++ toString i) sep
    let tail ← fdListFuel f rest (i + 1) newKey sep
    .ok (sub ++ tail)

end

mutual

/-- `flatten_json` with an explicit stack budget, mirroring `fdFuel`. -/
def fjFuel : Nat → JsonVal → String →
    Except String (List (String × JsonVal))
  | 0, _, _ => .error "RecursionError: maximum recursion depth exceeded"
  | Nat.succ f, d, pfx =>
    match d with
    | .obj entries => fjEntriesFuel f entries pfx []
    | other => .ok [(pfx, other)]

/-- Fuel-indexed entry loop of `flatten_json`. -/
def fjEntriesFuel : Nat → List (String × JsonVal) → String →
    List (String × JsonVal) → Except String (List (String × JsonVal))
  | _, [], _, acc => .ok acc
  | f, (k, v) :: rest, pfx, acc =>
    let newKey := if pfx = "" then k else pfx ++ "_" ++ k
    match v with
    | .obj es => do
      let sub ← fjFuel f (.obj es) newKey
      fjEntriesFuel f rest pfx (pyUpdate acc sub)
    | .arr l =>
      if isObjHead l then do
        let acc' ← fjListFuel f l 0 newKey acc
        fjEntriesFuel f rest pfx acc'
      else
        fjEntriesFuel f rest pfx (upsert acc newKey (.str (dumps (.arr l))))
    | other => fjEntriesFuel f rest pfx (upsert acc newKey other)

/-- Fuel-indexed `enumerate` loop of `flatten_json`. -/
def fjListFuel : Nat → List JsonVal → Nat → String →
    List (String × JsonVal) → Except String (List (String × JsonVal))
  | _, [], _, _, acc => .ok acc
  | f, item :: rest, i, newKey, acc => do
    let sub ← fjFuel f item (newKey ++ "_" ++ toString i)
    fjListFuel f rest (i + 1) newKey (pyUpdate acc sub)

end

/-! ### Lemmas about the insertion-ordered dict semantics -/

theorem pyUpdate_nil (m : List (String × JsonVal)) : pyUpdate m [] = m := rfl

theorem pyUpdate_cons (m : List (String × JsonVal)) (k : String) (v : JsonVal)
    (t : List (String × JsonVal)) :
    pyUpdate m ((k, v) :: t) = pyUpdate (upsert m k v) t := rfl

theorem pyUpdate_single (m : List (String × JsonVal)) (k : String) (v : JsonVal) :
    pyUpdate m [(k, v)] = upsert m k v := rfl

theorem pyUpdate_append (m l₁ l₂ : List (String × JsonVal)) :
    pyUpdate m (l₁ ++ l₂) = pyUpdate (pyUpdate m l₁) l₂ := by
  simp [pyUpdate, List.foldl_append]

theorem upsert_of_not_hasKey (m : List (String × JsonVal)) (k : String)
    (v : JsonVal) (h : hasKey m k = false) : upsert m k v = m ++ [(k, v)] := by
  induction m with
  | nil => rfl
  | cons hd tl ih =>
    obtain ⟨k', v'⟩ := hd
    simp only [hasKey, getVal] at h
    by_cases hk : k' = k
    · simp [hk] at h
    · simp only [upsert, if_neg hk, List.cons_append, List.cons.injEq, true_and]
      exact ih (by simpa [hasKey, if_neg hk] using h)

theorem hasKey_append (m₁ m₂ : List (String × JsonVal)) (k : String) :
    hasKey (m₁ ++ m₂) k = (hasKey m₁ k || hasKey m₂ k) := by
  induction m₁ with
  | nil => simp [hasKey, getVal]
  | cons hd tl ih =>
    obtain ⟨k', v'⟩ := hd
    by_cases hk : k' = k <;> simp [hasKey, getVal, hk] at ih ⊢ <;> exact ih

theorem pyUpdate_of_disjoint (l : List (String × JsonVal)) :
    ∀ m : List (String × JsonVal), (l.map Prod.fst).Nodup →
    (∀ k ∈ l.map Prod.fst, hasKey m k = false) → pyUpdate m l = m ++ l := by
  induction l with
  | nil => intro m _ _; simp [pyUpdate]
  | cons hd tl ih =>
    intro m hnd hdisj
    obtain ⟨k, v⟩ := hd
    rw [pyUpdate_cons, upsert_of_not_hasKey m k v (hdisj k (by simp))]
    rw [ih (m ++ [(k, v)]) (by simpa using hnd.of_cons)]
    · simp
    · intro k' hk'
      rw [hasKey_append]
      have h₁ : hasKey m k' = false := hdisj k' (by simp [hk'])
      have h₂ : k ≠ k' := by
        simp only [List.map_cons, List.nodup_cons] at hnd
        intro he; exact hnd.1 (he ▸ hk')
      simp only [Bool.or_eq_false_iff]
      exact ⟨h₁, by simp [hasKey, getVal, h₂]⟩

theorem dictOfItems_of_nodup (l : List (String × JsonVal))
    (h : (l.map Prod.fst).Nodup) : dictOfItems l = l := by
  have := pyUpdate_of_disjoint l [] h (fun k _ => rfl)
  simpa [dictOfItems] using this

/-! ### Equivalence of the two flatteners on uniform trees -/

mutual

theorem fjEntries_eq_fd : ∀ (es : List (String × JsonVal)) (pfx : String)
    (acc : List (String × JsonVal)), uniformEs es = true →
    fjEntries es pfx acc = pyUpdate acc (fdEntries es pfx "_")
  | [], pfx, acc, _ => by simp [fjEntries, fdEntries, pyUpdate]
  | (k, v) :: rest, pfx, acc, h => by
    obtain ⟨hv, hrest⟩ : uniformV v = true ∧ uniformEs rest = true := by
      simpa [uniformEs] using h
    cases v with
    | obj es2 =>
      have hsub := fjEntries_eq_fd es2 (if pfx = "" then k else pfx ++ "_" ++ k)
        [] (by simpa [uniformV] using hv)
      calc fjEntries ((k, .obj es2) :: rest) pfx acc
          = fjEntries rest pfx
              (pyUpdate acc (fjEntries es2 (if pfx = "" then k else pfx ++ "_" ++ k) [])) := by
            simp [fjEntries, flatten_json]
        _ = pyUpdate acc (fdEntries ((k, .obj es2) :: rest) pfx "_") := by
            rw [hsub, fjEntries_eq_fd rest pfx _ hrest]
            simp [fdEntries, fdItems, pyUpdate_append, dictOfItems]
    | arr l =>
      by_cases hl : isObjHead l = true
      · have hsub := fjList_eq_fd l 0 (if pfx = "" then k else pfx ++ "_" ++ k)
          acc (by simpa [uniformV, hl] using hv)
        calc fjEntries ((k, .arr l) :: rest) pfx acc
            = fjEntries rest pfx
                (fjList l 0 (if pfx = "" then k else pfx ++ "_" ++ k) acc) := by
              simp [fjEntries, hl]
          _ = pyUpdate acc (fdEntries ((k, .arr l) :: rest) pfx "_") := by
              rw [hsub, fjEntries_eq_fd rest pfx _ hrest]
              simp [fdEntries, hl, pyUpdate_append]
      · calc fjEntries ((k, .arr l) :: rest) pfx acc
            = fjEntries rest pfx
                (upsert acc (if pfx = "" then k else pfx ++ "_" ++ k)
                  (.str (dumps (.arr l)))) := by
              simp [fjEntries, hl]
          _ = pyUpdate acc (fdEntries ((k, .arr l) :: rest) pfx "_") := by
              rw [fjEntries_eq_fd rest pfx _ hrest]
              simp [fdEntries, hl, pyUpdate_cons]
    | null =>
      rw [show fjEntries ((k, .null) :: rest) pfx acc
          = fjEntries rest pfx
              (upsert acc (if pfx = "" then k else pfx ++ "_" ++ k) .null) from by
        simp [fjEntries]]
      rw [fjEntries_eq_fd rest pfx _ hrest]
      simp [fdEntries, pyUpdate_cons]
    | bool b =>
      rw [show fjEntries ((k, .bool b) :: rest) pfx acc
          = fjEntries rest pfx
              (upsert acc (if pfx = "" then k else pfx ++ "_" ++ k) (.bool b)) from by
        simp [fjEntries]]
      rw [fjEntries_eq_fd rest pfx _ hrest]
      simp [fdEntries, pyUpdate_cons]
    | num q =>
      rw [show fjEntries ((k, .num q) :: rest) pfx acc
          = fjEntries rest pfx
              (upsert acc (if pfx = "" then k else pfx ++ "_" ++ k) (.num q)) from by
        simp [fjEntries]]
      rw [fjEntries_eq_fd rest pfx _ hrest]
      simp [fdEntries, pyUpdate_cons]
    | str s =>
      rw [show fjEntries ((k, .str s) :: rest) pfx acc
          = fjEntries rest pfx
              (upsert acc (if pfx = "" then k else pfx ++ "_" ++ k) (.str s)) from by
        simp [fjEntries]]
      rw [fjEntries_eq_fd rest pfx _ hrest]
      simp [fdEntries, pyUpdate_cons]

theorem fjList_eq_fd : ∀ (l : List JsonVal) (i : Nat) (nk : String)
    (acc : List (String × JsonVal)), uniformL l = true →
    fjList l i nk acc = pyUpdate acc (fdList l i nk "_")
  | [], _, _, acc, _ => by simp [fjList, fdList, pyUpdate]
  | item :: rest, i, nk, acc, h => by
    cases item with
    | obj es2 =>
      obtain ⟨hes, hrest⟩ : uniformEs es2 = true ∧ uniformL rest = true := by
        simpa [uniformL] using h
      have hsub := fjEntries_eq_fd es2 (nk ++ "_" ++ toString i) [] hes
      calc fjList (.obj es2 :: rest) i nk acc
          = fjList rest (i + 1) nk
              (pyUpdate acc (fjEntries es2 (nk ++ "_" ++ toString i) [])) := by
            simp [fjList, flatten_json]
        _ = pyUpdate acc (fdList (.obj es2 :: rest) i nk "_") := by
            rw [hsub, fjList_eq_fd rest (i + 1) nk _ hrest]
            simp [fdList, fdItems, pyUpdate_append, dictOfItems]
    | null => simp [uniformL] at h
    | bool b => simp [uniformL] at h
    | num q => simp [uniformL] at h
    | str s => simp [uniformL] at h
    | arr l2 => simp [uniformL] at h

end

/-- **C4** (counterexample): on a sequence whose first element is a mapping
but whose second element is the scalar `5`, `flatten_json` keeps the scalar
as an indexed column while `flatten_dict` drops it, so the two
implementations disagree exactly on the case the claim includes. -/
theorem c4_counterexample :
    flatten_json (.obj [("a", .arr [.obj [("x", .num 1)], .num 5])]) "" ≠
      flatten_dict (.obj [("a", .arr [.obj [("x", .num 1)], .num 5])]) "" "_" := by
  intro h
  have hlen := congrArg List.length h
  have h2 : (2 : Nat) = 1 := by
    calc (2 : Nat)
        = (flatten_json (.obj [("a", .arr [.obj [("x", .num 1)], .num 5])]) "").length := rfl
      _ = (flatten_dict (.obj [("a", .arr [.obj [("x", .num 1)], .num 5])]) "" "_").length := hlen
      _ = 1 := rfl
  exact absurd h2 (by decide)

/-- **C4** (amended): on every uniform mapping input — one in which every
sequence whose first element is a mapping contains only mappings —
`flatten_json` and `flatten_dict` (with its default separator) compute the
same FlatRow under every prefix.  They disagree on non-mapping inputs
(`flatten_json` wraps them as `{prefix: value}`, `flatten_dict` returns the
empty row) and on mixed sequences (see the counterexample). -/
theorem c4_flatten_json_eq_flatten_dict (es : List (String × JsonVal))
    (pfx : String) (h : uniformEs es = true) :
    flatten_json (.obj es) pfx = flatten_dict (.obj es) pfx "_" := by
  have hmain := fjEntries_eq_fd es pfx [] h
  simpa [flatten_json, flatten_dict, fdItems, dictOfItems] using hmain

/-- **C4** witness: the amended equivalence applied to a concrete nested
tree with a dict, a dict-headed list, a scalar list and a scalar. -/
theorem c4_flatten_json_eq_flatten_dict_witness :
    flatten_json
      (.obj [("a", .obj [("b", .num 1)]),
             ("c", .arr [.obj [("d", .num 2)], .obj [("d", .num 3)]]),
             ("e", .arr [.num 1, .num 2]),
             ("f", .str "x")]) "pre" =
    flatten_dict
      (.obj [("a", .obj [("b", .num 1)]),
             ("c", .arr [.obj [("d", .num 2)], .obj [("d", .num 3)]]),
             ("e", .arr [.num 1, .num 2]),
             ("f", .str "x")]) "pre" "_" :=
  c4_flatten_json_eq_flatten_dict
    [("a", .obj [("b", .num 1)]),
     ("c", .arr [.obj [("d", .num 2)], .obj [("d", .num 3)]]),
     ("e", .arr [.num 1, .num 2]),
     ("f", .str "x")] "pre" rfl

/-! ### Multiset of flattened values versus the tree's leaves -/

theorem keysOf_append (a b : List (String × JsonVal)) :
    keysOf (a ++ b) = keysOf a ++ keysOf b := by
  simp [keysOf]

mutual

theorem rawEntries_values : ∀ (es : List (String × JsonVal)) (pk sep : String),
    (((rawEntries es pk sep).map Prod.snd : List JsonVal) : Multiset JsonVal) =
      leavesEs es
  | [], _, _ => by simp [rawEntries, leavesEs]
  | (k, v) :: rest, pk, sep => by
    cases v with
    | obj es2 =>
      have h1 := rawEntries_values es2 (if pk = "" then k else pk ++ sep ++ k) sep
      have h2 := rawEntries_values rest pk sep
      simp only [rawEntries, rawItems, leavesEs, List.map_append,
        ← Multiset.coe_add]
      rw [h1, h2]
    | arr l =>
      by_cases hl : isObjHead l = true
      · have h1 := rawList_values l 0 (if pk = "" then k else pk ++ sep ++ k) sep
        have h2 := rawEntries_values rest pk sep
        simp only [rawEntries, hl, if_true, leavesEs, List.map_append,
          ← Multiset.coe_add]
        rw [h1, h2]
      · have h2 := rawEntries_values rest pk sep
        simp only [rawEntries, hl, if_false, leavesEs, List.map_append,
          ← Multiset.coe_add, List.map_cons, List.map_nil]
        rw [← h2]
        simp [hl]
    | null =>
      have h2 := rawEntries_values rest pk sep
      simp only [rawEntries, leavesEs, List.map_append, ← Multiset.coe_add,
        List.map_cons, List.map_nil]
      rw [← h2]
      simp
    | bool b =>
      have h2 := rawEntries_values rest pk sep
      simp only [rawEntries, leavesEs, List.map_append, ← Multiset.coe_add,
        List.map_cons, List.map_nil]
      rw [← h2]
      simp
    | num q =>
      have h2 := rawEntries_values rest pk sep
      simp only [rawEntries, leavesEs, List.map_append, ← Multiset.coe_add,
        List.map_cons, List.map_nil]
      rw [← h2]
      simp
    | str s =>
      have h2 := rawEntries_values rest pk sep
      simp only [rawEntries, leavesEs, List.map_append, ← Multiset.coe_add,
        List.map_cons, List.map_nil]
      rw [← h2]
      simp

theorem rawList_values : ∀ (l : List JsonVal) (i : Nat) (nk sep : String),
    (((rawList l i nk sep).map Prod.snd : List JsonVal) : Multiset JsonVal) =
      leavesL l
  | [], _, _, _ => by simp [rawList, leavesL]
  | item :: rest, i, nk, sep => by
    cases item with
    | obj es2 =>
      have h1 := rawEntries_values es2 (nk ++ sep ++ toString i) sep
      have h2 := rawList_values rest (i + 1) nk sep
      simp only [rawList, rawItems, leavesL, List.map_append, ← Multiset.coe_add]
      rw [h1, h2]
    | null =>
      have h2 := rawList_values rest (i + 1) nk sep
      simpa [rawList, rawItems, leavesL] using h2
    | bool b =>
      have h2 := rawList_values rest (i + 1) nk sep
      simpa [rawList, rawItems, leavesL] using h2
    | num q =>
      have h2 := rawList_values rest (i + 1) nk sep
      simpa [rawList, rawItems, leavesL] using h2
    | str s =>
      have h2 := rawList_values rest (i + 1) nk sep
      simpa [rawList, rawItems, leavesL] using h2
    | arr l2 =>
      have h2 := rawList_values rest (i + 1) nk sep
      simpa [rawList, rawItems, leavesL] using h2

end

mutual

theorem fdEntries_eq_raw : ∀ (es : List (String × JsonVal)) (pk sep : String),
    (keysOf (rawEntries es pk sep)).Nodup →
    fdEntries es pk sep = rawEntries es pk sep
  | [], _, _, _ => by simp [fdEntries, rawEntries]
  | (k, v) :: rest, pk, sep, h => by
    cases v with
    | obj es2 =>
      rw [show rawEntries ((k, .obj es2) :: rest) pk sep
          = rawEntries es2 (if pk = "" then k else pk ++ sep ++ k) sep ++
            rawEntries rest pk sep from by simp [rawEntries, rawItems]] at h
      rw [keysOf_append, List.nodup_append] at h
      have h1 := fdEntries_eq_raw es2 (if pk = "" then k else pk ++ sep ++ k)
        sep h.1
      have h2 := fdEntries_eq_raw rest pk sep h.2.1
      simp only [fdEntries, rawEntries, fdItems, rawItems]
      rw [h1, h2, dictOfItems_of_nodup _ h.1]
    | arr l =>
      by_cases hl : isObjHead l = true
      · rw [show rawEntries ((k, .arr l) :: rest) pk sep
            = rawList l 0 (if pk = "" then k else pk ++ sep ++ k) sep ++
              rawEntries rest pk sep from by simp [rawEntries, hl]] at h
        rw [keysOf_append, List.nodup_append] at h
        have h1 := fdList_eq_raw l 0 (if pk = "" then k else pk ++ sep ++ k)
          sep h.1
        have h2 := fdEntries_eq_raw rest pk sep h.2.1
        simp only [fdEntries, rawEntries, hl, if_true]
        rw [h1, h2]
      · rw [show rawEntries ((k, .arr l) :: rest) pk sep
            = ((if pk = "" then k else pk ++ sep ++ k),
                .str (dumps (.arr l))) :: rawEntries rest pk sep from by
          simp [rawEntries, hl]] at h
        have h2 := fdEntries_eq_raw rest pk sep (by
          have := h
          simp only [keysOf, List.map_cons, List.nodup_cons] at this
          exact this.2)
        simp only [fdEntries, rawEntries, hl, if_false]
        rw [h2]
        simp
    | null =>
      have h2 := fdEntries_eq_raw rest pk sep (by
        rw [show rawEntries ((k, .null) :: rest) pk sep
            = ((if pk = "" then k else pk ++ sep ++ k), .null) ::
              rawEntries rest pk sep from by simp [rawEntries]] at h
        simp only [keysOf, List.map_cons, List.nodup_cons] at h
        exact h.2)
      simp only [fdEntries, rawEntries]
      rw [h2]
    | bool b =>
      have h2 := fdEntries_eq_raw rest pk sep (by
        rw [show rawEntries ((k, .bool b) :: rest) pk sep
            = ((if pk = "" then k else pk ++ sep ++ k), .bool b) ::
              rawEntries rest pk sep from by simp [rawEntries]] at h
        simp only [keysOf, List.map_cons, List.nodup_cons] at h
        exact h.2)
      simp only [fdEntries, rawEntries]
      rw [h2]
    | num q =>
      have h2 := fdEntries_eq_raw rest pk sep (by
        rw [show rawEntries ((k, .num q) :: rest) pk sep
            = ((if pk = "" then k else pk ++ sep ++ k), .num q) ::
              rawEntries rest pk sep from by simp [rawEntries]] at h
        simp only [keysOf, List.map_cons, List.nodup_cons] at h
        exact h.2)
      simp only [fdEntries, rawEntries]
      rw [h2]
    | str s =>
      have h2 := fdEntries_eq_raw rest pk sep (by
        rw [show rawEntries ((k, .str s) :: rest) pk sep
            = ((if pk = "" then k else pk ++ sep ++ k), .str s) ::
              rawEntries rest pk sep from by simp [rawEntries]] at h
        simp only [keysOf, List.map_cons, List.nodup_cons] at h
        exact h.2)
      simp only [fdEntries, rawEntries]
      rw [h2]

theorem fdList_eq_raw : ∀ (l : List JsonVal) (i : Nat) (nk sep : String),
    (keysOf (rawList l i nk sep)).Nodup →
    fdList l i nk sep = rawList l i nk sep
  | [], _, _, _, _ => by simp [fdList, rawList]
  | item :: rest, i, nk, sep, h => by
    cases item with
    | obj es2 =>
      rw [show rawList (.obj es2 :: rest) i nk sep
          = rawEntries es2 (nk ++ sep ++ toString i) sep ++
            rawList rest (i + 1) nk sep from by simp [rawList, rawItems]] at h
      rw [keysOf_append, List.nodup_append] at h
      have h1 := fdEntries_eq_raw es2 (nk ++ sep ++ toString i) sep h.1
      have h2 := fdList_eq_raw rest (i + 1) nk sep h.2.1
      simp only [fdList, rawList, fdItems, rawItems]
      rw [h1, h2, dictOfItems_of_nodup _ h.1]
    | null =>
      have h2 := fdList_eq_raw rest (i + 1) nk sep (by
        simpa [rawList, rawItems] using h)
      simp only [fdList, rawList, fdItems, rawItems, dictOfItems, pyUpdate]
      simpa using h2
    | bool b =>
      have h2 := fdList_eq_raw rest (i + 1) nk sep (by
        simpa [rawList, rawItems] using h)
      simp only [fdList, rawList, fdItems, rawItems, dictOfItems, pyUpdate]
      simpa using h2
    | num q =>
      have h2 := fdList_eq_raw rest (i + 1) nk sep (by
        simpa [rawList, rawItems] using h)
      simp only [fdList, rawList, fdItems, rawItems, dictOfItems, pyUpdate]
      simpa using h2
    | str s =>
      have h2 := fdList_eq_raw rest (i + 1) nk sep (by
        simpa [rawList, rawItems] using h)
      simp only [fdList, rawList, fdItems, rawItems, dictOfItems, pyUpdate]
      simpa using h2
    | arr l2 =>
      have h2 := fdList_eq_raw rest (i + 1) nk sep (by
        simpa [rawList, rawItems] using h)
      simp only [fdList, rawList, fdItems, rawItems, dictOfItems, pyUpdate]
      simpa using h2

end

theorem fdItems_eq_raw (d : JsonVal) (pk sep : String)
    (h : (keysOf (rawItems d pk sep)).Nodup) :
    fdItems d pk sep = rawItems d pk sep := by
  cases d with
  | obj es => exact fdEntries_eq_raw es pk sep (by simpa [rawItems] using h)
  | null => rfl
  | bool b => rfl
  | num q => rfl
  | str s => rfl
  | arr l => rfl

/-- **C3** (counterexample): in the tree `{"a": {"b": 1}, "a_b": 2}` the two
distinct leaves `1` and `2` flatten to the same composite key `a_b`, and
`dict(items)` silently keeps only the later value, so the leaf `1` is lost
and the multiset of flattened values differs from the multiset of leaves. -/
theorem c3_counterexample :
    ¬ ((((flatten_dict (.obj [("a", .obj [("b", .num 1)]), ("a_b", .num 2)])
          "" "_").map Prod.snd : List JsonVal) : Multiset JsonVal) =
        rootLeaves (.obj [("a", .obj [("b", .num 1)]), ("a_b", .num 2)])) := by
  intro h
  have hc := congrArg Multiset.card h
  have h1 : Multiset.card
      (((flatten_dict (.obj [("a", .obj [("b", .num 1)]), ("a_b", .num 2)])
        "" "_").map Prod.snd : List JsonVal) : Multiset JsonVal) = 1 := rfl
  have h2 : Multiset.card
      (rootLeaves (.obj [("a", .obj [("b", .num 1)]), ("a_b", .num 2)])) = 2 := by
    simp [rootLeaves, leavesEs]
  rw [h1, h2] at hc
  exact absurd hc (by decide)

/-- **C3** (amended): for every uniform tree all of whose derived composite
key paths are pairwise distinct, the multiset of values of the FlatRow
produced by `flatten_dict` equals the multiset of the tree's leaves (a leaf
being a scalar, or the serialization of a sequence whose first element is
not a mapping), and flattening the same tree twice yields identical
output.  Without key-distinctness a leaf can be silently overwritten (see
the counterexample). -/
theorem c3_flatten_values_eq_leaves (d : JsonVal) (pk sep : String)
    (_hu : uniformV d = true)
    (hnd : (keysOf (rawItems d pk sep)).Nodup) :
    (((flatten_dict d pk sep).map Prod.snd : List JsonVal) : Multiset JsonVal)
        = rootLeaves d ∧
      flatten_dict d pk sep = flatten_dict d pk sep := by
  refine ⟨?_, rfl⟩
  rw [show flatten_dict d pk sep = dictOfItems (fdItems d pk sep) from rfl,
    fdItems_eq_raw d pk sep hnd, dictOfItems_of_nodup _ hnd]
  cases d with
  | obj es => exact rawEntries_values es pk sep
  | null => simp [rawItems, rootLeaves]
  | bool b => simp [rawItems, rootLeaves]
  | num q => simp [rawItems, rootLeaves]
  | str s => simp [rawItems, rootLeaves]
  | arr l => simp [rawItems, rootLeaves]

/-- **C3** witness: the amended statement applied to a concrete
collision-free uniform tree. -/
theorem c3_flatten_values_eq_leaves_witness :
    uniformV (.obj [("a", .obj [("b", .num 1)]), ("c", .num 2)]) = true ∧
    (keysOf (rawItems (.obj [("a", .obj [("b", .num 1)]), ("c", .num 2)])
      "" "_")).Nodup ∧
    ((((flatten_dict (.obj [("a", .obj [("b", .num 1)]), ("c", .num 2)])
        "" "_").map Prod.snd : List JsonVal) : Multiset JsonVal)
      = rootLeaves (.obj [("a", .obj [("b", .num 1)]), ("c", .num 2)]) ∧
     flatten_dict (.obj [("a", .obj [("b", .num 1)]), ("c", .num 2)]) "" "_"
      = flatten_dict (.obj [("a", .obj [("b", .num 1)]), ("c", .num 2)]) "" "_") :=
  ⟨rfl, by decide,
    c3_flatten_values_eq_leaves (.obj [("a", .obj [("b", .num 1)]), ("c", .num 2)])
      "" "_" rfl (by decide)⟩

/-! ### Fuel-indexed flattening: totality and depth-bounded recursion -/

mutual

theorem fdFuel_ok : ∀ (f : Nat) (d : JsonVal) (pk sep : String),
    depthV d < f → fdFuel f d pk sep = .ok (flatten_dict d pk sep)
  | 0, _, _, _, h => absurd h (by omega)
  | Nat.succ f, d, pk, sep, h => by
    cases d with
    | obj entries =>
      have hf : depthEs entries < f := by
        simp only [depthV] at h; omega
      rw [show fdFuel (Nat.succ f) (.obj entries) pk sep
          = (fdEntriesFuel f entries pk sep).map dictOfItems from rfl]
      rw [fdEntriesFuel_ok f entries pk sep hf]
      rfl
    | null => rfl
    | bool b => rfl
    | num q => rfl
    | str s => rfl
    | arr l => rfl

theorem fdEntriesFuel_ok : ∀ (f : Nat) (es : List (String × JsonVal))
    (pk sep : String), depthEs es < f →
    fdEntriesFuel f es pk sep = .ok (fdEntries es pk sep)
  | f, [], pk, sep, _ => by cases f <;> rfl
  | f, (k, v) :: rest, pk, sep, h => by
    have hv : depthV v < f := by
      simp only [depthEs] at h; omega
    have hrest : depthEs rest < f := by
      simp only [depthEs] at h; omega
    cases v with
    | obj es2 =>
      rw [show fdEntriesFuel f ((k, .obj es2) :: rest) pk sep
          = (do
              let sub ← fdFuel f (.obj es2)
                (if pk = "" then k else pk ++ sep ++ k) sep
              let tail ← fdEntriesFuel f rest pk sep
              .ok (sub ++ tail)) from by cases f <;> rfl]
      rw [fdFuel_ok f (.obj es2) (if pk = "" then k else pk ++ sep ++ k) sep hv,
        fdEntriesFuel_ok f rest pk sep hrest]
      simp only [fdEntries, flatten_dict, fdItems]
      rfl
    | arr l =>
      have hl : depthL l < f := by
        simp only [depthV] at hv; omega
      by_cases ho : isObjHead l = true
      · rw [show fdEntriesFuel f ((k, .arr l) :: rest) pk sep
            = (do
                let sub ← fdListFuel f l 0
                  (if pk = "" then k else pk ++ sep ++ k) sep
                let tail ← fdEntriesFuel f rest pk sep
                .ok (sub ++ tail)) from by cases f <;> simp [fdEntriesFuel, ho]]
        rw [fdListFuel_ok f l 0 (if pk = "" then k else pk ++ sep ++ k) sep hl,
          fdEntriesFuel_ok f rest pk sep hrest]
        simp only [fdEntries, ho, if_true]
        rfl
      · rw [show fdEntriesFuel f ((k, .arr l) :: rest) pk sep
            = (do
                let tail ← fdEntriesFuel f rest pk sep
                .ok (((if pk = "" then k else pk ++ sep ++ k),
                  JsonVal.str (dumps (.arr l))) :: tail)) from by
            cases f <;> simp [fdEntriesFuel, ho]]
        rw [fdEntriesFuel_ok f rest pk sep hrest]
        simp only [fdEntries, ho, Bool.false_eq_true, if_false]
        rfl
    | null =>
      rw [show fdEntriesFuel f ((k, .null) :: rest) pk sep
          = (do
              let tail ← fdEntriesFuel f rest pk sep
              .ok (((if pk = "" then k else pk ++ sep ++ k), JsonVal.null)
                :: tail)) from by cases f <;> rfl]
      rw [fdEntriesFuel_ok f rest pk sep hrest]
      simp only [fdEntries]
      rfl
    | bool b =>
      rw [show fdEntriesFuel f ((k, .bool b) :: rest) pk sep
          = (do
              let tail ← fdEntriesFuel f rest pk sep
              .ok (((if pk = "" then k else pk ++ sep ++ k), JsonVal.bool b)
                :: tail)) from by cases f <;> rfl]
      rw [fdEntriesFuel_ok f rest pk sep hrest]
      simp only [fdEntries]
      rfl
    | num q =>
      rw [show fdEntriesFuel f ((k, .num q) :: rest) pk sep
          = (do
              let tail ← fdEntriesFuel f rest pk sep
              .ok (((if pk = "" then k else pk ++ sep ++ k), JsonVal.num q)
                :: tail)) from by cases f <;> rfl]
      rw [fdEntriesFuel_ok f rest pk sep hrest]
      simp only [fdEntries]
      rfl
    | str s =>
      rw [show fdEntriesFuel f ((k, .str s) :: rest) pk sep
          = (do
              let tail ← fdEntriesFuel f rest pk sep
              .ok (((if pk = "" then k else pk ++ sep ++ k), JsonVal.str s)
                :: tail)) from by cases f <;> rfl]
      rw [fdEntriesFuel_ok f rest pk sep hrest]
      simp only [fdEntries]
      rfl

theorem fdListFuel_ok : ∀ (f : Nat) (l : List JsonVal) (i : Nat)
    (nk sep : String), depthL l < f →
    fdListFuel f l i nk sep = .ok (fdList l i nk sep)
  | f, [], _, _, _, _ => by cases f <;> rfl
  | f, item :: rest, i, nk, sep, h => by
    have hitem : depthV item < f := by
      simp only [depthL] at h; omega
    have hrest : depthL rest < f := by
      simp only [depthL] at h; omega
    rw [show fdListFuel f (item :: rest) i nk sep
        = (do
            let sub ← fdFuel f item (nk ++ sep ++ toString i) sep
            let tail ← fdListFuel f rest (i + 1) nk sep
            .ok (sub ++ tail)) from by cases f <;> rfl]
    rw [fdFuel_ok f item (nk ++ sep ++ toString i) sep hitem,
      fdListFuel_ok f rest (i + 1) nk sep hrest]
    simp only [fdList, flatten_dict]
    rfl

end

mutual

theorem fjFuel_ok : ∀ (f : Nat) (d : JsonVal) (pfx : String),
    depthV d < f → fjFuel f d pfx = .ok (flatten_json d pfx)
  | 0, _, _, h => absurd h (by omega)
  | Nat.succ f, d, pfx, h => by
    cases d with
    | obj entries =>
      have hf : depthEs entries < f := by
        simp only [depthV] at h; omega
      rw [show fjFuel (Nat.succ f) (.obj entries) pfx
          = fjEntriesFuel f entries pfx [] from rfl]
      rw [fjEntriesFuel_ok f entries pfx [] hf]
      rfl
    | null => rfl
    | bool b => rfl
    | num q => rfl
    | str s => rfl
    | arr l => rfl

theorem fjEntriesFuel_ok : ∀ (f : Nat) (es : List (String × JsonVal))
    (pfx : String) (acc : List (String × JsonVal)), depthEs es < f →
    fjEntriesFuel f es pfx acc = .ok (fjEntries es pfx acc)
  | f, [], _, _, _ => by cases f <;> rfl
  | f, (k, v) :: rest, pfx, acc, h => by
    have hv : depthV v < f := by
      simp only [depthEs] at h; omega
    have hrest : depthEs rest < f := by
      simp only [depthEs] at h; omega
    cases v with
    | obj es2 =>
      rw [show fjEntriesFuel f ((k, .obj es2) :: rest) pfx acc
          = (do
              let sub ← fjFuel f (.obj es2) (if pfx = "" then k else pfx ++ "_" ++ k)
              fjEntriesFuel f rest pfx (pyUpdate acc sub)) from by
        cases f <;> rfl]
      rw [fjFuel_ok f (.obj es2) (if pfx = "" then k else pfx ++ "_" ++ k) hv]
      rw [show (do
            let sub ← (Except.ok
              (flatten_json (.obj es2) (if pfx = "" then k else pfx ++ "_" ++ k)) :
                Except String (List (String × JsonVal)))
            fjEntriesFuel f rest pfx (pyUpdate acc sub))
          = fjEntriesFuel f rest pfx (pyUpdate acc
              (flatten_json (.obj es2) (if pfx = "" then k else pfx ++ "_" ++ k)))
          from rfl]
      rw [fjEntriesFuel_ok f rest pfx _ hrest]
      simp only [fjEntries]
    | arr l =>
      have hl : depthL l < f := by
        simp only [depthV] at hv; omega
      by_cases ho : isObjHead l = true
      · rw [show fjEntriesFuel f ((k, .arr l) :: rest) pfx acc
            = (do
                let acc' ← fjListFuel f l 0
                  (if pfx = "" then k else pfx ++ "_" ++ k) acc
                fjEntriesFuel f rest pfx acc') from by
          cases f <;> simp [fjEntriesFuel, ho]]
        rw [fjListFuel_ok f l 0 (if pfx = "" then k else pfx ++ "_" ++ k) acc hl]
        rw [show (do
              let acc' ← (Except.ok
                (fjList l 0 (if pfx = "" then k else pfx ++ "_" ++ k) acc) :
                  Except String (List (String × JsonVal)))
              fjEntriesFuel f rest pfx acc')
            = fjEntriesFuel f rest pfx
                (fjList l 0 (if pfx = "" then k else pfx ++ "_" ++ k) acc)
            from rfl]
        rw [fjEntriesFuel_ok f rest pfx _ hrest]
        simp only [fjEntries, ho, if_true]
      · rw [show fjEntriesFuel f ((k, .arr l) :: rest) pfx acc
            = fjEntriesFuel f rest pfx
                (upsert acc (if pfx = "" then k else pfx ++ "_" ++ k)
                  (.str (dumps (.arr l)))) from by
          cases f <;> simp [fjEntriesFuel, ho]]
        rw [fjEntriesFuel_ok f rest pfx _ hrest]
        simp only [fjEntries, ho, Bool.false_eq_true, if_false]
    | null =>
      rw [show fjEntriesFuel f ((k, .null) :: rest) pfx acc
          = fjEntriesFuel f rest pfx
              (upsert acc (if pfx = "" then k else pfx ++ "_" ++ k) .null)
          from by cases f <;> rfl]
      rw [fjEntriesFuel_ok f rest pfx _ hrest]
      simp only [fjEntries]
    | bool b =>
      rw [show fjEntriesFuel f ((k, .bool b) :: rest) pfx acc
          = fjEntriesFuel f rest pfx
              (upsert acc (if pfx = "" then k else pfx ++ "_" ++ k) (.bool b))
          from by cases f <;> rfl]
      rw [fjEntriesFuel_ok f rest pfx _ hrest]
      simp only [fjEntries]
    | num q =>
      rw [show fjEntriesFuel f ((k, .num q) :: rest) pfx acc
          = fjEntriesFuel f rest pfx
              (upsert acc (if pfx = "" then k else pfx ++ "_" ++ k) (.num q))
          from by cases f <;> rfl]
      rw [fjEntriesFuel_ok f rest pfx _ hrest]
      simp only [fjEntries]
    | str s =>
      rw [show fjEntriesFuel f ((k, .str s) :: rest) pfx acc
          = fjEntriesFuel f rest pfx
              (upsert acc (if pfx = "" then k else pfx ++ "_" ++ k) (.str s))
          from by cases f <;> rfl]
      rw [fjEntriesFuel_ok f rest pfx _ hrest]
      simp only [fjEntries]

theorem fjListFuel_ok : ∀ (f : Nat) (l : List JsonVal) (i : Nat) (nk : String)
    (acc : List (String × JsonVal)), depthL l < f →
    fjListFuel f l i nk acc = .ok (fjList l i nk acc)
  | f, [], _, _, _, _ => by cases f <;> rfl
  | f, item :: rest, i, nk, acc, h => by
    have hitem : depthV item < f := by
      simp only [depthL] at h; omega
    have hrest : depthL rest < f := by
      simp only [depthL] at h; omega
    rw [show fjListFuel f (item :: rest) i nk acc
        = (do
            let sub ← fjFuel f item (nk ++ "_" ++ toString i)
            fjListFuel f rest (i + 1) nk (pyUpdate acc sub)) from by
      cases f <;> rfl]
    rw [fjFuel_ok f item (nk ++ "_" ++ toString i) hitem]
    rw [show (do
          let sub ← (Except.ok (flatten_json item (nk ++ "_" ++ toString i)) :
            Except String (List (String × JsonVal)))
          fjListFuel f rest (i + 1) nk (pyUpdate acc sub))
        = fjListFuel f rest (i + 1) nk
            (pyUpdate acc (flatten_json item (nk ++ "_" ++ toString i)))
        from rfl]
    rw [fjListFuel_ok f rest (i + 1) nk _ hrest]
    simp only [fjList]

end

/-- **C5**: both flattenings are deterministic total functions whose
recursion depth is bounded by the depth of the input tree: with any stack
budget exceeding the tree's depth, the fuel-indexed embeddings (whose only
failure is Python's `RecursionError`) return `ok` of the total
flattening, on every JSON-compatible input and prefix. -/
theorem c5_flatten_total (d : JsonVal) (pk sep : String) (fuel : Nat)
    (h : depthV d < fuel) :
    fdFuel fuel d pk sep = .ok (flatten_dict d pk sep) ∧
    fjFuel fuel d pk = .ok (flatten_json d pk) :=
  ⟨fdFuel_ok fuel d pk sep h, fjFuel_ok fuel d pk h⟩

/-- **C5** witness: a depth-2 tree flattens successfully with fuel 3. -/
theorem c5_flatten_total_witness :
    depthV (.obj [("a", .obj [("b", .num 1)])]) < 3 ∧
    (fdFuel 3 (.obj [("a", .obj [("b", .num 1)])]) "p" "_"
        = .ok (flatten_dict (.obj [("a", .obj [("b", .num 1)])]) "p" "_") ∧
      fjFuel 3 (.obj [("a", .obj [("b", .num 1)])]) "p"
        = .ok (flatten_json (.obj [("a", .obj [("b", .num 1)])]) "p")) :=
  ⟨by decide, c5_flatten_total (.obj [("a", .obj [("b", .num 1)])]) "p" "_" 3
    (by decide)⟩

/-- **C10**: a key bound to an empty mapping vanishes entirely from the
flattened row (under any prefix, in both implementations), while a key
bound to an empty sequence is kept as a column holding the JSON text
`[]`. -/
theorem c10_empty_containers (k pk : String) :
    flatten_dict (.obj [(k, .obj [])]) pk "_" = [] ∧
    flatten_json (.obj [(k, .obj [])]) pk = [] ∧
    flatten_dict (.obj [(k, .arr [])]) pk "_"
      = [((if pk = "" then k else pk ++ "_" ++ k), .str "[]")] ∧
    flatten_json (.obj [(k, .arr [])]) pk
      = [((if pk = "" then k else pk ++ "_" ++ k), .str "[]")] := by
  refine ⟨?_, ?_, ?_, ?_⟩
  · simp [flatten_dict, fdItems, fdEntries, dictOfItems, pyUpdate]
  · simp [flatten_json, fjEntries, pyUpdate]
  · simp [flatten_dict, fdItems, fdEntries, dictOfItems, pyUpdate, isObjHead,
      dumps, dumpsElems, upsert]
  · simp [flatten_json, fjEntries, isObjHead, dumps, dumpsElems, upsert]

/-! ### Embedding of `extract_key_metrics` with Python exception semantics -/

/-- The Python exception kinds reachable inside `extract_key_metrics`. -/
inductive PyErr where
  | typeError (m : String) : PyErr
  | keyError (m : String) : PyErr
  | attributeError (m : String) : PyErr
  | valueError (m : String) : PyErr
  | indexError (m : String) : PyErr
deriving Repr

/-- `str(e)` as recorded into the error fields (the exact interpreter
message text is not modelled; only presence of the field matters). -/
def PyErr.msg : PyErr → String
  | .typeError m => "TypeError: " ++ m
  | .keyError m => "KeyError: " ++ m
  | .attributeError m => "AttributeError: " ++ m
  | .valueError m => "ValueError: " ++ m
  | .indexError m => "IndexError: " ++ m

/-- Contiguous-sublist (substring) test on character lists. -/
def infixB (needle hay : List Char) : Bool :=
  match hay with
  | [] => needle.isEmpty
  | _ :: t => needle.isPrefixOf hay || infixB needle t

/-- Python `key in v` for a string key: key membership for dicts, element
membership for lists (a string never equals a non-string), substring test
for strings, `TypeError` otherwise. -/
def pyContains (key : String) (v : JsonVal) : Except PyErr Bool :=
  match v with
  | .obj es => .ok (hasKey es key)
  | .arr l => .ok (l.any fun x => match x with
      | .str s => s = key
      | _ => false)
  | .str s => .ok (infixB key.toList s.toList)
  | _ => .error (.typeError "argument of type is not iterable")

/-- Python `v[key]` with a string subscript: only dicts support it. -/
def pySubscriptStr (v : JsonVal) (key : String) : Except PyErr JsonVal :=
  match v with
  | .obj es =>
    match getVal es key with
    | some x => .ok x
    | none => .error (.keyError key)
  | _ => .error (.typeError "indices must be integers")

/-- Python `v[0]`. -/
def pySubscriptZero (v : JsonVal) : Except PyErr JsonVal :=
  match v with
  | .arr (x :: _) => .ok x
  | .arr [] => .error (.indexError "list index out of range")
  | .str s =>
    match s.toList with
    | c :: _ => .ok (.str (String.singleton c))
    | [] => .error (.indexError "string index out of range")
  | .obj _ => .error (.keyError "0")
  | _ => .error (.typeError "object is not subscriptable")

/-- Python `v.get(key, dflt)`: only dicts have `.get`. -/
def pyGet (v : JsonVal) (key : String) (dflt : JsonVal) :
    Except PyErr JsonVal :=
  match v with
  | .obj es => .ok (getValD es key dflt)
  | _ => .error (.attributeError "object has no attribute get")

/-- Numeric view of a value for arithmetic and comparisons
(Python `bool` is an `int`). -/
def toNum : JsonVal → Option Rat
  | .num q => some q
  | .bool true => some 1
  | .bool false => some 0
  | _ => none

/-- Python `x > 0`. -/
def pyGtZero (v : JsonVal) : Except PyErr Bool :=
  match toNum v with
  | some q => .ok (decide (q > 0))
  | none => .error (.typeError "not supported between instances")

/-- Python `x < y` on numbers. -/
def pyLt (a b : JsonVal) : Except PyErr Bool :=
  match toNum a, toNum b with
  | some x, some y => .ok (decide (x < y))
  | _, _ => .error (.typeError "not supported between instances")

/-- `x - y` on rationals, written with `Rat.mkRat` so that it evaluates
inside the kernel; `ratSub_eq_sub` below shows it is ordinary
subtraction. -/
def ratSub (x y : Rat) : Rat :=
  mkRat (x.num * (y.den : Int) - y.num * (x.den : Int)) (x.den * y.den)

/-- `|q|` on rationals, kernel-evaluable; `ratAbs_eq_abs` below shows it
is the ordinary absolute value. -/
def ratAbs (q : Rat) : Rat :=
  if q.num < 0 then mkRat (-q.num) q.den else q

/-- Python `abs(x - y)` on numbers. -/
def pyAbsSub (a b : JsonVal) : Except PyErr JsonVal :=
  match toNum a, toNum b with
  | some x, some y => .ok (.num (ratAbs (ratSub x y)))
  | _, _ => .error (.typeError "unsupported operand types")

/-- `s.endswith("s")` on a Python string: its last character is `'s'`. -/
def endsWithS (s : String) : Bool :=
  match s.toList.getLast? with
  | some c => c = 's'
  | none => false

/-- Python `v.endswith("s")`: only strings have `.endswith`. -/
def pyEndsWithS (v : JsonVal) : Except PyErr Bool :=
  match v with
  | .str s => .ok (endsWithS s)
  | _ => .error (.attributeError "object has no attribute endswith")

/-- Python `v[:-1]` (slicing, total on strings and lists). -/
def pySliceDropLast (v : JsonVal) : Except PyErr JsonVal :=
  match v with
  | .str s => .ok (.str (String.mk s.toList.dropLast))
  | .arr l => .ok (.arr l.dropLast)
  | _ => .error (.typeError "object is not subscriptable")

/-- `metrics[k]` on the (real) metrics dict. -/
def pyDictIndex (m : List (String × JsonVal)) (k : String) :
    Except PyErr JsonVal :=
  match getVal m k with
  | some v => .ok v
  | none => .error (.keyError k)

/-- Numeric value of a digit run. -/
def digitsVal (ds : List Char) : Nat :=
  ds.foldl (fun a c => a * 10 + (c.toNat - 48)) 0

/-- Modelled fragment of Python `float(str)` on a trimmed character list:
optional sign, decimal digits with optional fraction, optional exponent;
the value `s d₁…dₖ.f₁…fₗ e p` is the rational `s·d₁…dₖf₁…fₗ·10^(p-l)`,
assembled with `Rat.mkRat` so the parse evaluates inside the kernel.
(`inf`/`nan` literals and digit underscores are outside the model.) -/
def floatParseCore (cs0 : List Char) : Option Rat :=
  let (sign, cs1) : Int × List Char :=
    match cs0 with
    | '+' :: t => (1, t)
    | '-' :: t => (-1, t)
    | t => (1, t)
  let ip := cs1.takeWhile Char.isDigit
  let cs2 := cs1.dropWhile Char.isDigit
  let (fp, cs3) : List Char × List Char :=
    match cs2 with
    | '.' :: t => (t.takeWhile Char.isDigit, t.dropWhile Char.isDigit)
    | t => ([], t)
  if ip.isEmpty && fp.isEmpty then none
  else
    let mantNum : Int := sign * (digitsVal (ip ++ fp) : Int)
    match cs3 with
    | [] => some (mkRat mantNum (10 ^ fp.length))
    | e :: t =>
      if e = 'e' || e = 'E' then
        let (esign, t2) : Int × List Char :=
          match t with
          | '+' :: t3 => (1, t3)
          | '-' :: t3 => (-1, t3)
          | t3 => (1, t3)
        let ed := t2.takeWhile Char.isDigit
        let t3 := t2.dropWhile Char.isDigit
        if ed.isEmpty || !t3.isEmpty then none
        else
          let n : Int := esign * (digitsVal ed : Int) - (fp.length : Int)
          if 0 ≤ n then some (mkRat (mantNum * 10 ^ n.toNat) 1)
          else some (mkRat mantNum (10 ^ (-n).toNat))
      else none

/-- Python `float(s)` on a string (modelled fragment). -/
def floatParse (s : String) : Except PyErr Rat :=
  match floatParseCore
      (((s.toList.dropWhile Char.isWhitespace).reverse.dropWhile
        Char.isWhitespace).reverse) with
  | some q => .ok q
  | none => .error (.valueError "could not convert string to float")

/-- Python `float(v)`. -/
def pyFloat (v : JsonVal) : Except PyErr Rat :=
  match v with
  | .str s => floatParse s
  | .num q => .ok q
  | .bool true => .ok 1
  | .bool false => .ok 0
  | _ => .error (.typeError "float argument must be a string or a number")

/-- Run one fallible expression inside a `try` block: on an exception the
metrics mutated so far are kept and the exception is handed to the
`except` clause. -/
def tryStep {α : Type} (m : List (String × JsonVal)) (e : Except PyErr α)
    (k : α → List (String × JsonVal) × Option PyErr) :
    List (String × JsonVal) × Option PyErr :=
  match e with
  | .error err => (m, some err)
  | .ok a => k a

/-- Lines 105-107 of `enhanced_comparison.py` (always executed by the
directions `try` block, whatever the earlier `if`s decided). -/
def dirTail (resp : JsonVal) (m : List (String × JsonVal)) :
    List (String × JsonVal) × Option PyErr :=
  tryStep m (pyGet resp "status" (.str "UNKNOWN")) fun st =>
  let m1 := upsert m "directions_status" st
  tryStep m1 (pyGet resp "_response_time_ms" (.num 0)) fun t =>
  let m2 := upsert m1 "directions_response_time_ms" t
  tryStep m2 (pyContains "error" resp) fun he =>
  (upsert m2 "directions_has_error" (.bool he), none)

/-- The directions `try` block (lines 93-107): first route, first leg,
distance/duration text and value, addresses, then status/latency/error. -/
def dirTry (resp : JsonVal) (m : List (String × JsonVal)) :
    List (String × JsonVal) × Option PyErr :=
  tryStep m (pyContains "routes" resp) fun hasRoutes =>
  if !hasRoutes then dirTail resp m else
  tryStep m (pySubscriptStr resp "routes") fun routesVal =>
  if !truthy routesVal then dirTail resp m else
  tryStep m (pySubscriptZero routesVal) fun route =>
  tryStep m (pyContains "legs" route) fun hasLegs =>
  if !hasLegs then dirTail resp m else
  tryStep m (pySubscriptStr route "legs") fun legsVal =>
  if !truthy legsVal then dirTail resp m else
  tryStep m (pySubscriptZero legsVal) fun leg =>
  tryStep m (pyGet leg "distance" (.obj [])) fun d1 =>
  tryStep m (pyGet d1 "text" (.str "")) fun v1 =>
  let m1 := upsert m "directions_distance_text" v1
  tryStep m1 (pyGet leg "distance" (.obj [])) fun d2 =>
  tryStep m1 (pyGet d2 "value" (.num 0)) fun v2 =>
  let m2 := upsert m1 "directions_distance_meters" v2
  tryStep m2 (pyGet leg "duration" (.obj [])) fun d3 =>
  tryStep m2 (pyGet d3 "text" (.str "")) fun v3 =>
  let m3 := upsert m2 "directions_duration_text" v3
  tryStep m3 (pyGet leg "duration" (.obj [])) fun d4 =>
  tryStep m3 (pyGet d4 "value" (.num 0)) fun v4 =>
  let m4 := upsert m3 "directions_duration_seconds" v4
  tryStep m4 (pyGet leg "start_address" (.str "")) fun v5 =>
  let m5 := upsert m4 "directions_start_address" v5
  tryStep m5 (pyGet leg "end_address" (.str "")) fun v6 =>
  let m6 := upsert m5 "directions_end_address" v6
  dirTail resp m6

/-- Lines 131-132 (always executed by the routes `try` block). -/
def routesTail (resp : JsonVal) (m : List (String × JsonVal)) :
    List (String × JsonVal) × Option PyErr :=
  tryStep m (pyGet resp "_response_time_ms" (.num 0)) fun t =>
  let m1 := upsert m "routes_response_time_ms" t
  tryStep m1 (pyContains "error" resp) fun he =>
  (upsert m1 "routes_has_error" (.bool he), none)

/-- The routes `try` block (lines 113-132). -/
def routesTry (resp : JsonVal) (m : List (String × JsonVal)) :
    List (String × JsonVal) × Option PyErr :=
  tryStep m (pyContains "routes" resp) fun hasRoutes =>
  if !hasRoutes then routesTail resp m else
  tryStep m (pySubscriptStr resp "routes") fun routesVal =>
  if !truthy routesVal then routesTail resp m else
  tryStep m (pySubscriptZero routesVal) fun route =>
  tryStep m (pyGet route "distanceMeters" (.num 0)) fun dm =>
  let m1 := upsert m "routes_distance_meters" dm
  tryStep m1 (pyGet route "duration" (.str "")) fun du =>
  let m2 := upsert m1 "routes_duration" du
  tryStep m2 (pyContains "legs" route) fun hasLegs =>
  if !hasLegs then routesTail resp m2 else
  tryStep m2 (pySubscriptStr route "legs") fun legsVal =>
  if !truthy legsVal then routesTail resp m2 else
  tryStep m2 (pySubscriptZero legsVal) fun leg =>
  tryStep m2 (pyGet leg "distanceMeters" (.num 0)) fun ldm =>
  let m3 := upsert m2 "routes_leg_distance_meters" ldm
  tryStep m3 (pyGet leg "duration" (.str "")) fun ldu =>
  let m4 := upsert m3 "routes_leg_duration" ldu
  tryStep m4 (pyContains "polyline" route) fun hasPoly =>
  if hasPoly then
    let m5 := upsert m4 "routes_has_polyline" (.bool true)
    tryStep m5 (pySubscriptStr route "polyline") fun poly =>
    tryStep m5 (pyContains "encodedPolyline" poly) fun hasEnc =>
    routesTail resp (upsert m5 "routes_polyline_type"
      (.str (if hasEnc then "encoded_polyline" else "geo_json")))
  else
    routesTail resp (upsert m4 "routes_has_polyline" (.bool false))

/-- Lines 152-157: the response-time comparison. -/
def compTime (m : List (String × JsonVal)) :
    List (String × JsonVal) × Option PyErr :=
  let dt := getValD m "directions_response_time_ms" (.num 0)
  let rt := getValD m "routes_response_time_ms" (.num 0)
  tryStep m (pyGtZero dt) fun c1 =>
  if !c1 then (m, none) else
  tryStep m (pyGtZero rt) fun c2 =>
  if !c2 then (m, none) else
  tryStep m (pyAbsSub dt rt) fun diff =>
  let m1 := upsert m "response_time_difference_ms" diff
  tryStep m1 (pyLt dt rt) fun lt =>
  (upsert m1 "faster_api" (.str (if lt then "directions" else "routes")), none)

/-- Lines 144-150: the duration comparison (parse `"...s"`, then absolute
difference), falling through to the response-time comparison. -/
def compDur (m : List (String × JsonVal)) :
    List (String × JsonVal) × Option PyErr :=
  tryStep m (pyGtZero (getValD m "directions_duration_seconds" (.num 0))) fun c1 =>
  if !c1 then compTime m else
  if !truthy (getValD m "routes_duration" .null) then compTime m else
  tryStep m (pyDictIndex m "routes_duration") fun rds =>
  tryStep m (pyEndsWithS rds) fun ends =>
  if !ends then compTime m else
  tryStep m (pySliceDropLast rds) fun sliced =>
  tryStep m (pyFloat sliced) fun q =>
  tryStep m (pyDictIndex m "directions_duration_seconds") fun dd =>
  tryStep m (pyAbsSub dd (.num q)) fun diff =>
  compTime (upsert m "duration_difference_seconds" diff)

/-- Lines 138-157: the whole comparison `try` body, starting with the
distance comparison. -/
def compBody (m : List (String × JsonVal)) :
    List (String × JsonVal) × Option PyErr :=
  tryStep m (pyGtZero (getValD m "directions_distance_meters" (.num 0))) fun c1 =>
  if !c1 then compDur m else
  tryStep m (pyGtZero (getValD m "routes_distance_meters" (.num 0))) fun c2 =>
  if !c2 then compDur m else
  tryStep m (pyDictIndex m "directions_distance_meters") fun dd =>
  tryStep m (pyDictIndex m "routes_distance_meters") fun rd =>
  tryStep m (pyAbsSub dd rd) fun diff =>
  compDur (upsert m "distance_difference_meters" diff)

/-- The comparison `try`/`except` (lines 138-160). -/
def compTry (m : List (String × JsonVal)) : List (String × JsonVal) :=
  match compBody m with
  | (m1, none) => m1
  | (m1, some e) => upsert m1 "comparison_error" (.str e.msg)

/-- `EnhancedAPIComparison.extract_key_metrics(directions_resp,
routes_resp)`, exactly as written: the comparison block (lines 137-160)
is indented inside the routes `except` handler (line 134), so it runs
only when the routes extraction raised. -/
def extract_key_metrics (directionsResp routesResp : JsonVal) :
    List (String × JsonVal) :=
  let r1 := dirTry directionsResp []
  let m1 := match r1.2 with
    | some e => upsert r1.1 "directions_extraction_error" (.str e.msg)
    | none => r1.1
  let r2 := routesTry routesResp m1
  match r2.2 with
  | none => r2.1
  | some e => compTry (upsert r2.1 "routes_extraction_error" (.str e.msg))

/-! ### Key provenance through the extractor -/

theorem getVal_upsert_self (m : List (String × JsonVal)) (k : String)
    (v : JsonVal) : getVal (upsert m k v) k = some v := by
  induction m with
  | nil => simp [upsert, getVal]
  | cons hd tl ih =>
    obtain ⟨k', v'⟩ := hd
    by_cases hk : k' = k <;> simp [upsert, getVal, hk, ih]

theorem getVal_upsert_ne (m : List (String × JsonVal)) (k' : String)
    (v : JsonVal) (k : String) (h : ¬ (k' = k)) :
    getVal (upsert m k' v) k = getVal m k := by
  induction m with
  | nil => simp [upsert, getVal, h]
  | cons hd tl ih =>
    obtain ⟨k0, v0⟩ := hd
    by_cases hk : k0 = k' <;> simp [upsert, getVal, hk, h, ih]

/-- The metric names the directions `try` block can write. -/
def dirKeys : List String :=
  ["directions_distance_text", "directions_distance_meters",
   "directions_duration_text", "directions_duration_seconds",
   "directions_start_address", "directions_end_address",
   "directions_status", "directions_response_time_ms",
   "directions_has_error"]

/-- The metric names the routes `try` block can write. -/
def routesKeys : List String :=
  ["routes_distance_meters", "routes_duration",
   "routes_leg_distance_meters", "routes_leg_duration",
   "routes_has_polyline", "routes_polyline_type",
   "routes_response_time_ms", "routes_has_error"]

theorem dirTail_preserves (resp : JsonVal) (m : List (String × JsonVal))
    (k : String) (hk : k ∉ dirKeys) :
    getVal ((dirTail resp m).1) k = getVal m k := by
  have h : ¬ (k = "directions_distance_text" ∨ k = "directions_distance_meters" ∨
      k = "directions_duration_text" ∨ k = "directions_duration_seconds" ∨
      k = "directions_start_address" ∨ k = "directions_end_address" ∨
      k = "directions_status" ∨ k = "directions_response_time_ms" ∨
      k = "directions_has_error") := by
    simp [dirKeys] at hk
    tauto
  push_neg at h
  obtain ⟨h1, h2, h3, h4, h5, h6, h7, h8, h9⟩ := h
  unfold dirTail tryStep
  repeat' split
  all_goals simp_all [getVal_upsert_ne, Ne.symm h1, Ne.symm h2, Ne.symm h3,
    Ne.symm h4, Ne.symm h5, Ne.symm h6, Ne.symm h7, Ne.symm h8, Ne.symm h9]

theorem dirTry_preserves (resp : JsonVal) (m : List (String × JsonVal))
    (k : String) (hk : k ∉ dirKeys) :
    getVal ((dirTry resp m).1) k = getVal m k := by
  have h : ¬ (k = "directions_distance_text" ∨ k = "directions_distance_meters" ∨
      k = "directions_duration_text" ∨ k = "directions_duration_seconds" ∨
      k = "directions_start_address" ∨ k = "directions_end_address" ∨
      k = "directions_status" ∨ k = "directions_response_time_ms" ∨
      k = "directions_has_error") := by
    simp [dirKeys] at hk
    tauto
  push_neg at h
  obtain ⟨h1, h2, h3, h4, h5, h6, h7, h8, h9⟩ := h
  unfold dirTry tryStep
  repeat' split
  all_goals try simp_all [dirTail_preserves, getVal_upsert_ne]
  all_goals try (repeat' split)
  all_goals try simp_all [dirTail_preserves, getVal_upsert_ne]
  all_goals try (repeat' split)
  all_goals try simp_all [dirTail_preserves, getVal_upsert_ne]
  all_goals simp_all [getVal_upsert_ne, Ne.symm h1, Ne.symm h2, Ne.symm h3,
    Ne.symm h4, Ne.symm h5, Ne.symm h6, Ne.symm h7, Ne.symm h8, Ne.symm h9]

theorem routesTail_preserves (resp : JsonVal) (m : List (String × JsonVal))
    (k : String) (hk : k ∉ routesKeys) :
    getVal ((routesTail resp m).1) k = getVal m k := by
  have h : ¬ (k = "routes_distance_meters" ∨ k = "routes_duration" ∨
      k = "routes_leg_distance_meters" ∨ k = "routes_leg_duration" ∨
      k = "routes_has_polyline" ∨ k = "routes_polyline_type" ∨
      k = "routes_response_time_ms" ∨ k = "routes_has_error") := by
    simp [routesKeys] at hk
    tauto
  push_neg at h
  obtain ⟨h1, h2, h3, h4, h5, h6, h7, h8⟩ := h
  unfold routesTail tryStep
  repeat' split
  all_goals simp_all [getVal_upsert_ne, Ne.symm h1, Ne.symm h2, Ne.symm h3,
    Ne.symm h4, Ne.symm h5, Ne.symm h6, Ne.symm h7, Ne.symm h8]

theorem routesTry_preserves (resp : JsonVal) (m : List (String × JsonVal))
    (k : String) (hk : k ∉ routesKeys) :
    getVal ((routesTry resp m).1) k = getVal m k := by
  have h : ¬ (k = "routes_distance_meters" ∨ k = "routes_duration" ∨
      k = "routes_leg_distance_meters" ∨ k = "routes_leg_duration" ∨
      k = "routes_has_polyline" ∨ k = "routes_polyline_type" ∨
      k = "routes_response_time_ms" ∨ k = "routes_has_error") := by
    simp [routesKeys] at hk
    tauto
  push_neg at h
  obtain ⟨h1, h2, h3, h4, h5, h6, h7, h8⟩ := h
  unfold routesTry tryStep
  repeat' split
  all_goals try simp_all [routesTail_preserves, getVal_upsert_ne]
  all_goals try (repeat' split)
  all_goals try simp_all [routesTail_preserves, getVal_upsert_ne]
  all_goals try (repeat' split)
  all_goals try simp_all [routesTail_preserves, getVal_upsert_ne]
  all_goals simp_all [getVal_upsert_ne, Ne.symm h1, Ne.symm h2, Ne.symm h3,
    Ne.symm h4, Ne.symm h5, Ne.symm h6, Ne.symm h7, Ne.symm h8]

theorem compTime_preserves (m : List (String × JsonVal)) (k : String)
    (hk : ¬ k = "response_time_difference_ms") (hk2 : ¬ k = "faster_api") :
    getVal ((compTime m).1) k = getVal m k := by
  unfold compTime tryStep
  cases h1 : pyGtZero (getValD m "directions_response_time_ms" (.num 0)) with
  | error e => simp [h1]
  | ok c1 =>
    cases c1 with
    | false => simp [h1]
    | true =>
      cases h2 : pyGtZero (getValD m "routes_response_time_ms" (.num 0)) with
      | error e => simp [h1, h2]
      | ok c2 =>
        cases c2 with
        | false => simp [h1, h2]
        | true =>
          cases h3 : pyAbsSub (getValD m "directions_response_time_ms" (.num 0))
              (getValD m "routes_response_time_ms" (.num 0)) with
          | error e => simp [h1, h2, h3]
          | ok diff =>
            cases h4 : pyLt (getValD m "directions_response_time_ms" (.num 0))
                (getValD m "routes_response_time_ms" (.num 0)) with
            | error e => simp [h1, h2, h3, h4, getVal_upsert_ne, Ne.symm hk]
            | ok lt =>
              simp [h1, h2, h3, h4, getVal_upsert_ne, Ne.symm hk, Ne.symm hk2]

theorem pyDictIndex_ok (m : List (String × JsonVal)) (k : String) (v : JsonVal)
    (h : pyDictIndex m k = .ok v) : getVal m k = some v := by
  unfold pyDictIndex at h
  cases hg : getVal m k <;> simp [hg] at h <;> simp [h]

theorem compTime_rtd_only_if (m : List (String × JsonVal))
    (h : hasKey ((compTime m).1) "response_time_difference_ms" = true) :
    hasKey m "response_time_difference_ms" = true ∨
    (pyGtZero (getValD m "directions_response_time_ms" (.num 0)) = .ok true ∧
     pyGtZero (getValD m "routes_response_time_ms" (.num 0)) = .ok true) := by
  unfold compTime tryStep at h
  cases h1 : pyGtZero (getValD m "directions_response_time_ms" (.num 0)) with
  | error e => simp [h1] at h; exact Or.inl h
  | ok c1 =>
    cases c1 with
    | false => simp [h1] at h; exact Or.inl h
    | true =>
      cases h2 : pyGtZero (getValD m "routes_response_time_ms" (.num 0)) with
      | error e => simp [h1, h2] at h; exact Or.inl h
      | ok c2 =>
        cases c2 with
        | false => simp [h1, h2] at h; exact Or.inl h
        | true => exact Or.inr ⟨rfl, rfl⟩

theorem compDur_preserves (m : List (String × JsonVal)) (k : String)
    (hk0 : ¬ k = "duration_difference_seconds")
    (hk1 : ¬ k = "response_time_difference_ms") (hk2 : ¬ k = "faster_api") :
    getVal ((compDur m).1) k = getVal m k := by
  unfold compDur tryStep
  cases h1 : pyGtZero (getValD m "directions_duration_seconds" (.num 0)) with
  | error e => simp [h1]
  | ok c1 =>
    cases c1 with
    | false => simp [h1, compTime_preserves m k hk1 hk2]
    | true =>
      cases htr : truthy (getValD m "routes_duration" .null) with
      | false => simp [h1, htr, compTime_preserves m k hk1 hk2]
      | true =>
        cases h2 : pyDictIndex m "routes_duration" with
        | error e => simp [h1, htr, h2]
        | ok rds =>
          cases h3 : pyEndsWithS rds with
          | error e => simp [h1, htr, h2, h3]
          | ok ends =>
            cases ends with
            | false => simp [h1, htr, h2, h3, compTime_preserves m k hk1 hk2]
            | true =>
              cases h4 : pySliceDropLast rds with
              | error e => simp [h1, htr, h2, h3, h4]
              | ok sliced =>
                cases h5 : pyFloat sliced with
                | error e => simp [h1, htr, h2, h3, h4, h5]
                | ok q =>
                  cases h6 : pyDictIndex m "directions_duration_seconds" with
                  | error e => simp [h1, htr, h2, h3, h4, h5, h6]
                  | ok dd =>
                    cases h7 : pyAbsSub dd (.num q) with
                    | error e => simp [h1, htr, h2, h3, h4, h5, h6, h7]
                    | ok diff =>
                      simp [h1, htr, h2, h3, h4, h5, h6, h7,
                        compTime_preserves _ k hk1 hk2, getVal_upsert_ne,
                        Ne.symm hk0]

theorem compDur_dds_only_if (m : List (String × JsonVal))
    (h : hasKey ((compDur m).1) "duration_difference_seconds" = true) :
    hasKey m "duration_difference_seconds" = true ∨
    (pyGtZero (getValD m "directions_duration_seconds" (.num 0)) = .ok true ∧
     ∃ s, getVal m "routes_duration" = some (.str s) ∧ ¬ s = "" ∧
       endsWithS s = true) := by
  have hpass : ∀ m' : List (String × JsonVal),
      hasKey ((compTime m').1) "duration_difference_seconds"
        = hasKey m' "duration_difference_seconds" := by
    intro m'
    simp [hasKey, compTime_preserves m' "duration_difference_seconds"
      (by decide) (by decide)]
  unfold compDur tryStep at h
  cases h1 : pyGtZero (getValD m "directions_duration_seconds" (.num 0)) with
  | error e => simp [h1] at h; exact Or.inl h
  | ok c1 =>
    cases c1 with
    | false => simp [h1, hpass] at h; exact Or.inl h
    | true =>
      cases htr : truthy (getValD m "routes_duration" .null) with
      | false => simp [h1, htr, hpass] at h; exact Or.inl h
      | true =>
        cases h2 : pyDictIndex m "routes_duration" with
        | error e => simp [h1, htr, h2] at h; exact Or.inl h
        | ok rds =>
          cases h3 : pyEndsWithS rds with
          | error e => simp [h1, htr, h2, h3] at h; exact Or.inl h
          | ok ends =>
            cases ends with
            | false => simp [h1, htr, h2, h3, hpass] at h; exact Or.inl h
            | true =>
              cases rds with
              | str s =>
                have hends : endsWithS s = true := by
                  simpa [pyEndsWithS] using h3
                have hgv : getVal m "routes_duration" = some (.str s) :=
                  pyDictIndex_ok m "routes_duration" (.str s) h2
                have hne : ¬ s = "" := by
                  rw [show getValD m "routes_duration" .null = .str s from by
                    simp [getValD, hgv]] at htr
                  simpa [truthy] using htr
                exact Or.inr ⟨rfl, s, hgv, hne, hends⟩
              | null => simp [pyEndsWithS] at h3
              | bool b => simp [pyEndsWithS] at h3
              | num q => simp [pyEndsWithS] at h3
              | arr l => simp [pyEndsWithS] at h3
              | obj es => simp [pyEndsWithS] at h3

theorem getValD_upsert_ne (m : List (String × JsonVal)) (k' : String)
    (v : JsonVal) (k : String) (dflt : JsonVal) (h : ¬ (k' = k)) :
    getValD (upsert m k' v) k dflt = getValD m k dflt := by
  simp [getValD, getVal_upsert_ne m k' v k h]

theorem ratSub_eq_sub (x y : Rat) : ratSub x y = x - y := by
  have hx : (x.den : Rat) ≠ 0 := by
    exact_mod_cast x.den_nz
  have hy : (y.den : Rat) ≠ 0 := by
    exact_mod_cast y.den_nz
  unfold ratSub
  rw [Rat.mkRat_eq_div]
  conv_rhs => rw [← Rat.num_div_den x, ← Rat.num_div_den y]
  rw [div_sub_div _ _ hx hy]
  push_cast
  ring_nf

theorem ratAbs_eq_abs (q : Rat) : ratAbs q = |q| := by
  unfold ratAbs
  split
  · rename_i h
    have hq : q < 0 := by
      rw [← not_le, ← Rat.num_nonneg, not_le]
      exact h
    rw [abs_of_neg hq, Rat.mkRat_eq_div]
    push_cast
    rw [neg_div, Rat.num_div_den]
  · rename_i h
    have hq : 0 ≤ q := by
      rw [not_lt] at h
      rwa [Rat.num_nonneg] at h
    rw [abs_of_nonneg hq]

theorem pyAbsSub_ok (a b v : JsonVal) (h : pyAbsSub a b = .ok v) :
    ∃ x y, toNum a = some x ∧ toNum b = some y ∧ v = .num |x - y| := by
  unfold pyAbsSub at h
  cases hx : toNum a with
  | none => rw [hx] at h; simp at h
  | some x =>
    cases hy : toNum b with
    | none => rw [hx, hy] at h; simp at h
    | some y =>
      rw [hx, hy] at h
      simp at h
      exact ⟨x, y, rfl, rfl, by rw [← h, ratAbs_eq_abs, ratSub_eq_sub]⟩

theorem compDur_rtd_only_if (m : List (String × JsonVal))
    (h : hasKey ((compDur m).1) "response_time_difference_ms" = true) :
    hasKey m "response_time_difference_ms" = true ∨
    (pyGtZero (getValD m "directions_response_time_ms" (.num 0)) = .ok true ∧
     pyGtZero (getValD m "routes_response_time_ms" (.num 0)) = .ok true) := by
  unfold compDur tryStep at h
  cases h1 : pyGtZero (getValD m "directions_duration_seconds" (.num 0)) with
  | error e => simp [h1] at h; exact Or.inl h
  | ok c1 =>
    rw [h1] at h
    simp only [] at h
    cases c1 with
    | false => exact compTime_rtd_only_if m (by simpa using h)
    | true =>
      cases htr : truthy (getValD m "routes_duration" .null) with
      | false =>
        rw [htr] at h
        exact compTime_rtd_only_if m (by simpa using h)
      | true =>
        rw [htr] at h
        simp only [Bool.not_true, Bool.not_false, if_false, if_true] at h
        cases h2 : pyDictIndex m "routes_duration" with
        | error e => rw [h2] at h; simp at h; exact Or.inl h
        | ok rds =>
          rw [h2] at h
          simp only [] at h
          cases h3 : pyEndsWithS rds with
          | error e => rw [h3] at h; simp at h; exact Or.inl h
          | ok ends =>
            rw [h3] at h
            simp only [] at h
            cases ends with
            | false => exact compTime_rtd_only_if m (by simpa using h)
            | true =>
              simp only [Bool.not_true, Bool.not_false, if_false, if_true] at h
              cases h4 : pySliceDropLast rds with
              | error e => rw [h4] at h; simp at h; exact Or.inl h
              | ok sliced =>
                rw [h4] at h
                simp only [] at h
                cases h5 : pyFloat sliced with
                | error e => rw [h5] at h; simp at h; exact Or.inl h
                | ok q =>
                  rw [h5] at h
                  simp only [] at h
                  cases h6 : pyDictIndex m "directions_duration_seconds" with
                  | error e => rw [h6] at h; simp at h; exact Or.inl h
                  | ok dd =>
                    rw [h6] at h
                    simp only [] at h
                    cases h7 : pyAbsSub dd (.num q) with
                    | error e => rw [h7] at h; simp at h; exact Or.inl h
                    | ok diff =>
                      rw [h7] at h
                      simp only [] at h
                      have hres := compTime_rtd_only_if
                        (upsert m "duration_difference_seconds" diff)
                        (by simpa using h)
                      rcases hres with hl | ⟨hg1, hg2⟩
                      · left
                        simpa [hasKey, getVal_upsert_ne _ _ _ _
                          (by decide : ¬ ("duration_difference_seconds"
                            = "response_time_difference_ms"))] using hl
                      · right
                        constructor
                        · rw [getValD_upsert_ne _ _ _ _ _ (by decide)] at hg1
                          exact hg1
                        · rw [getValD_upsert_ne _ _ _ _ _ (by decide)] at hg2
                          exact hg2

theorem compDur_dds_value (m : List (String × JsonVal))
    (hm : hasKey m "duration_difference_seconds" = false)
    (h : hasKey ((compDur m).1) "duration_difference_seconds" = true) :
    ∃ s q dv x, getVal m "routes_duration" = some (.str s) ∧
      endsWithS s = true ∧
      floatParse (String.mk s.toList.dropLast) = .ok q ∧
      getVal m "directions_duration_seconds" = some dv ∧ toNum dv = some x ∧
      getVal ((compDur m).1) "duration_difference_seconds"
        = some (.num |x - q|) := by
  have hpass : ∀ m' : List (String × JsonVal),
      hasKey ((compTime m').1) "duration_difference_seconds"
        = hasKey m' "duration_difference_seconds" := fun m' => by
    simp [hasKey, compTime_preserves m' "duration_difference_seconds"
      (by decide) (by decide)]
  unfold compDur tryStep at h ⊢
  cases h1 : pyGtZero (getValD m "directions_duration_seconds" (.num 0)) with
  | error e => rw [h1] at h; simp [hm] at h
  | ok c1 =>
    rw [h1] at h
    simp only [] at h ⊢
    cases c1 with
    | false => simp at h; rw [hpass m] at h; simp [hm] at h
    | true =>
      simp only [Bool.not_true, Bool.false_eq_true, if_false] at h ⊢
      cases htr : truthy (getValD m "routes_duration" .null) with
      | false => rw [htr] at h; simp at h; rw [hpass m] at h; simp [hm] at h
      | true =>
        rw [htr] at h
        simp only [Bool.not_true, Bool.false_eq_true, if_false] at h ⊢
        cases h2 : pyDictIndex m "routes_duration" with
        | error e => rw [h2] at h; simp [hm] at h
        | ok rds =>
          rw [h2] at h
          simp only [] at h ⊢
          cases h3 : pyEndsWithS rds with
          | error e => rw [h3] at h; simp [hm] at h
          | ok ends =>
            rw [h3] at h
            simp only [] at h ⊢
            cases ends with
            | false => simp at h; rw [hpass m] at h; simp [hm] at h
            | true =>
              simp only [Bool.not_true, Bool.false_eq_true, if_false] at h ⊢
              cases rds with
              | null => simp [pyEndsWithS] at h3
              | bool b => simp [pyEndsWithS] at h3
              | num q0 => simp [pyEndsWithS] at h3
              | arr l => simp [pyEndsWithS] at h3
              | obj es => simp [pyEndsWithS] at h3
              | str s =>
                have hends : endsWithS s = true := by
                  simpa [pyEndsWithS] using h3
                have hgv : getVal m "routes_duration" = some (.str s) :=
                  pyDictIndex_ok m "routes_duration" (.str s) h2
                cases h4 : pySliceDropLast (JsonVal.str s) with
                | error e => simp [pySliceDropLast] at h4
                | ok sliced =>
                  have hsl : sliced = .str (String.mk s.toList.dropLast) := by
                    simpa [pySliceDropLast] using h4.symm
                  rw [h4] at h
                  simp only [] at h ⊢
                  cases h5 : pyFloat sliced with
                  | error e => rw [h5] at h; simp [hm] at h
                  | ok q =>
                    rw [h5] at h
                    simp only [] at h ⊢
                    have hfp : floatParse (String.mk s.toList.dropLast)
                        = .ok q := by
                      rw [hsl] at h5
                      simpa [pyFloat] using h5
                    cases h6 : pyDictIndex m "directions_duration_seconds" with
                    | error e => rw [h6] at h; simp [hm] at h
                    | ok dd =>
                      rw [h6] at h
                      simp only [] at h ⊢
                      have hdd : getVal m "directions_duration_seconds"
                          = some dd :=
                        pyDictIndex_ok m "directions_duration_seconds" dd h6
                      cases h7 : pyAbsSub dd (.num q) with
                      | error e => rw [h7] at h; simp [hm] at h
                      | ok diff =>
                        rw [h7] at h
                        simp only [] at h ⊢
                        obtain ⟨x, y, hx, hy, hdiff⟩ :=
                          pyAbsSub_ok dd (.num q) diff h7
                        have hyq : y = q := by simpa [toNum] using hy.symm
                        refine ⟨s, q, dd, x, hgv, hends, hfp, hdd, hx, ?_⟩
                        rw [compTime_preserves _ "duration_difference_seconds"
                          (by decide) (by decide)]
                        rw [getVal_upsert_self]
                        rw [hdiff, hyq]

theorem compDur_preserves3 (m : List (String × JsonVal)) (k : String)
    (hk0 : ¬ k = "duration_difference_seconds")
    (hk1 : ¬ k = "response_time_difference_ms") (hk2 : ¬ k = "faster_api") :
    getVal ((compDur m).1) k = getVal m k :=
  compDur_preserves m k hk0 hk1 hk2

theorem compBody_preserves (m : List (String × JsonVal)) (k : String)
    (hka : ¬ k = "distance_difference_meters")
    (hk0 : ¬ k = "duration_difference_seconds")
    (hk1 : ¬ k = "response_time_difference_ms") (hk2 : ¬ k = "faster_api") :
    getVal ((compBody m).1) k = getVal m k := by
  unfold compBody tryStep
  cases h1 : pyGtZero (getValD m "directions_distance_meters" (.num 0)) with
  | error e => simp
  | ok c1 =>
    simp only [] at *
    cases c1 with
    | false => simp [compDur_preserves m k hk0 hk1 hk2]
    | true =>
      simp only [Bool.not_true, Bool.false_eq_true, if_false]
      cases h2 : pyGtZero (getValD m "routes_distance_meters" (.num 0)) with
      | error e => simp
      | ok c2 =>
        simp only []
        cases c2 with
        | false => simp [compDur_preserves m k hk0 hk1 hk2]
        | true =>
          simp only [Bool.not_true, Bool.false_eq_true, if_false]
          cases h3 : pyDictIndex m "directions_distance_meters" with
          | error e => simp
          | ok dd =>
            simp only []
            cases h4 : pyDictIndex m "routes_distance_meters" with
            | error e => simp
            | ok rd =>
              simp only []
              cases h5 : pyAbsSub dd rd with
              | error e => simp
              | ok diff =>
                simp only []
                rw [compDur_preserves _ k hk0 hk1 hk2,
                  getVal_upsert_ne _ _ _ _ (Ne.symm hka)]

theorem compBody_ddm_only_if (m : List (String × JsonVal))
    (h : hasKey ((compBody m).1) "distance_difference_meters" = true) :
    hasKey m "distance_difference_meters" = true ∨
    (pyGtZero (getValD m "directions_distance_meters" (.num 0)) = .ok true ∧
     pyGtZero (getValD m "routes_distance_meters" (.num 0)) = .ok true) := by
  have hpass : ∀ m' : List (String × JsonVal),
      hasKey ((compDur m').1) "distance_difference_meters"
        = hasKey m' "distance_difference_meters" := fun m' => by
    simp [hasKey, compDur_preserves m' "distance_difference_meters"
      (by decide) (by decide) (by decide)]
  unfold compBody tryStep at h
  cases h1 : pyGtZero (getValD m "directions_distance_meters" (.num 0)) with
  | error e => rw [h1] at h; simp at h; exact Or.inl h
  | ok c1 =>
    rw [h1] at h
    simp only [] at h
    cases c1 with
    | false => simp at h; rw [hpass m] at h; exact Or.inl h
    | true =>
      simp only [Bool.not_true, Bool.false_eq_true, if_false] at h
      cases h2 : pyGtZero (getValD m "routes_distance_meters" (.num 0)) with
      | error e => rw [h2] at h; simp at h; exact Or.inl h
      | ok c2 =>
        rw [h2] at h
        simp only [] at h
        cases c2 with
        | false => simp at h; rw [hpass m] at h; exact Or.inl h
        | true => exact Or.inr ⟨rfl, rfl⟩

theorem compBody_dds_only_if (m : List (String × JsonVal))
    (h : hasKey ((compBody m).1) "duration_difference_seconds" = true) :
    hasKey m "duration_difference_seconds" = true ∨
    (pyGtZero (getValD m "directions_duration_seconds" (.num 0)) = .ok true ∧
     ∃ s, getVal m "routes_duration" = some (.str s) ∧ ¬ s = "" ∧
       endsWithS s = true) := by
  unfold compBody tryStep at h
  cases h1 : pyGtZero (getValD m "directions_distance_meters" (.num 0)) with
  | error e => rw [h1] at h; simp at h; exact Or.inl h
  | ok c1 =>
    rw [h1] at h
    simp only [] at h
    cases c1 with
    | false => simp at h; exact compDur_dds_only_if m h
    | true =>
      simp only [Bool.not_true, Bool.false_eq_true, if_false] at h
      cases h2 : pyGtZero (getValD m "routes_distance_meters" (.num 0)) with
      | error e => rw [h2] at h; simp at h; exact Or.inl h
      | ok c2 =>
        rw [h2] at h
        simp only [] at h
        cases c2 with
        | false => simp at h; exact compDur_dds_only_if m h
        | true =>
          simp only [Bool.not_true, Bool.false_eq_true, if_false] at h
          cases h3 : pyDictIndex m "directions_distance_meters" with
          | error e => rw [h3] at h; simp at h; exact Or.inl h
          | ok dd =>
            rw [h3] at h
            simp only [] at h
            cases h4 : pyDictIndex m "routes_distance_meters" with
            | error e => rw [h4] at h; simp at h; exact Or.inl h
            | ok rd =>
              rw [h4] at h
              simp only [] at h
              cases h5 : pyAbsSub dd rd with
              | error e => rw [h5] at h; simp at h; exact Or.inl h
              | ok diff =>
                rw [h5] at h
                simp only [] at h
                rcases compDur_dds_only_if _ h with hl | ⟨hg, s, hgv, hne, hends⟩
                · left
                  simpa [hasKey, getVal_upsert_ne _ _ _ _
                    (by decide : ¬ ("distance_difference_meters"
                      = "duration_difference_seconds"))] using hl
                · right
                  rw [getValD_upsert_ne _ _ _ _ _ (by decide)] at hg
                  rw [getVal_upsert_ne _ _ _ _ (by decide)] at hgv
                  exact ⟨hg, s, hgv, hne, hends⟩

theorem compBody_rtd_only_if (m : List (String × JsonVal))
    (h : hasKey ((compBody m).1) "response_time_difference_ms" = true) :
    hasKey m "response_time_difference_ms" = true ∨
    (pyGtZero (getValD m "directions_response_time_ms" (.num 0)) = .ok true ∧
     pyGtZero (getValD m "routes_response_time_ms" (.num 0)) = .ok true) := by
  unfold compBody tryStep at h
  cases h1 : pyGtZero (getValD m "directions_distance_meters" (.num 0)) with
  | error e => rw [h1] at h; simp at h; exact Or.inl h
  | ok c1 =>
    rw [h1] at h
    simp only [] at h
    cases c1 with
    | false => simp at h; exact compDur_rtd_only_if m h
    | true =>
      simp only [Bool.not_true, Bool.false_eq_true, if_false] at h
      cases h2 : pyGtZero (getValD m "routes_distance_meters" (.num 0)) with
      | error e => rw [h2] at h; simp at h; exact Or.inl h
      | ok c2 =>
        rw [h2] at h
        simp only [] at h
        cases c2 with
        | false => simp at h; exact compDur_rtd_only_if m h
        | true =>
          simp only [Bool.not_true, Bool.false_eq_true, if_false] at h
          cases h3 : pyDictIndex m "directions_distance_meters" with
          | error e => rw [h3] at h; simp at h; exact Or.inl h
          | ok dd =>
            rw [h3] at h
            simp only [] at h
            cases h4 : pyDictIndex m "routes_distance_meters" with
            | error e => rw [h4] at h; simp at h; exact Or.inl h
            | ok rd =>
              rw [h4] at h
              simp only [] at h
              cases h5 : pyAbsSub dd rd with
              | error e => rw [h5] at h; simp at h; exact Or.inl h
              | ok diff =>
                rw [h5] at h
                simp only [] at h
                rcases compDur_rtd_only_if _ h with hl | ⟨hg1, hg2⟩
                · left
                  simpa [hasKey, getVal_upsert_ne _ _ _ _
                    (by decide : ¬ ("distance_difference_meters"
                      = "response_time_difference_ms"))] using hl
                · right
                  rw [getValD_upsert_ne _ _ _ _ _ (by decide)] at hg1
                  rw [getValD_upsert_ne _ _ _ _ _ (by decide)] at hg2
                  exact ⟨hg1, hg2⟩

theorem compBody_dds_value (m : List (String × JsonVal))
    (hm : hasKey m "duration_difference_seconds" = false)
    (h : hasKey ((compBody m).1) "duration_difference_seconds" = true) :
    ∃ s q dv x, getVal m "routes_duration" = some (.str s) ∧
      endsWithS s = true ∧
      floatParse (String.mk s.toList.dropLast) = .ok q ∧
      getVal m "directions_duration_seconds" = some dv ∧ toNum dv = some x ∧
      getVal ((compBody m).1) "duration_difference_seconds"
        = some (.num |x - q|) := by
  unfold compBody tryStep at h ⊢
  cases h1 : pyGtZero (getValD m "directions_distance_meters" (.num 0)) with
  | error e => rw [h1] at h; simp [hm] at h
  | ok c1 =>
    rw [h1] at h
    simp only [] at h ⊢
    cases c1 with
    | false => simp at h; simpa using compDur_dds_value m hm h
    | true =>
      simp only [Bool.not_true, Bool.false_eq_true, if_false] at h ⊢
      cases h2 : pyGtZero (getValD m "routes_distance_meters" (.num 0)) with
      | error e => rw [h2] at h; simp [hm] at h
      | ok c2 =>
        rw [h2] at h
        simp only [] at h ⊢
        cases c2 with
        | false => simp at h; simpa using compDur_dds_value m hm h
        | true =>
          simp only [Bool.not_true, Bool.false_eq_true, if_false] at h ⊢
          cases h3 : pyDictIndex m "directions_distance_meters" with
          | error e => rw [h3] at h; simp [hm] at h
          | ok dd =>
            rw [h3] at h
            simp only [] at h ⊢
            cases h4 : pyDictIndex m "routes_distance_meters" with
            | error e => rw [h4] at h; simp [hm] at h
            | ok rd =>
              rw [h4] at h
              simp only [] at h ⊢
              cases h5 : pyAbsSub dd rd with
              | error e => rw [h5] at h; simp [hm] at h
              | ok diff =>
                rw [h5] at h
                simp only [] at h ⊢
                have hm' : hasKey (upsert m "distance_difference_meters" diff)
                    "duration_difference_seconds" = false := by
                  simpa [hasKey, getVal_upsert_ne _ _ _ _
                    (by decide : ¬ ("distance_difference_meters"
                      = "duration_difference_seconds"))] using hm
                obtain ⟨s, q, dv, x, hgv, hends, hfp, hdd, hx, hval⟩ :=
                  compDur_dds_value _ hm' h
                rw [getVal_upsert_ne _ _ _ _ (by decide)] at hgv
                rw [getVal_upsert_ne _ _ _ _ (by decide)] at hdd
                exact ⟨s, q, dv, x, hgv, hends, hfp, hdd, hx, hval⟩

theorem compTry_preserves (m : List (String × JsonVal)) (k : String)
    (hka : ¬ k = "distance_difference_meters")
    (hk0 : ¬ k = "duration_difference_seconds")
    (hk1 : ¬ k = "response_time_difference_ms") (hk2 : ¬ k = "faster_api")
    (hk3 : ¬ k = "comparison_error") :
    getVal (compTry m) k = getVal m k := by
  have hb := compBody_preserves m k hka hk0 hk1 hk2
  unfold compTry
  cases hcb : compBody m with
  | mk m1 oe =>
    rw [hcb] at hb
    cases oe with
    | none => simpa using hb
    | some e =>
      simpa [getVal_upsert_ne _ _ _ _ (Ne.symm hk3)] using hb

theorem compTry_hasKey_to_body (m : List (String × JsonVal)) (k : String)
    (hk3 : ¬ k = "comparison_error")
    (h : hasKey (compTry m) k = true) :
    hasKey ((compBody m).1) k = true := by
  unfold compTry at h
  cases hcb : compBody m with
  | mk m1 oe =>
    rw [hcb] at h
    cases oe with
    | none => simpa using h
    | some e =>
      simp only [] at h
      simpa [hasKey, getVal_upsert_ne _ _ _ _ (Ne.symm hk3)] using h

theorem compTry_dds_value (m : List (String × JsonVal))
    (hm : hasKey m "duration_difference_seconds" = false)
    (h : hasKey (compTry m) "duration_difference_seconds" = true) :
    ∃ s q dv x, getVal m "routes_duration" = some (.str s) ∧
      endsWithS s = true ∧
      floatParse (String.mk s.toList.dropLast) = .ok q ∧
      getVal m "directions_duration_seconds" = some dv ∧ toNum dv = some x ∧
      getVal (compTry m) "duration_difference_seconds"
        = some (.num |x - q|) := by
  have hb := compTry_hasKey_to_body m "duration_difference_seconds"
    (by decide) h
  obtain ⟨s, q, dv, x, hgv, hends, hfp, hdd, hx, hval⟩ :=
    compBody_dds_value m hm hb
  refine ⟨s, q, dv, x, hgv, hends, hfp, hdd, hx, ?_⟩
  unfold compTry
  cases hcb : compBody m with
  | mk m1 oe =>
    rw [hcb] at hval
    cases oe with
    | none => simpa using hval
    | some e =>
      simpa [getVal_upsert_ne _ _ _ _
        (by decide : ¬ ("comparison_error" = "duration_difference_seconds"))]
        using hval

theorem extract_shape (d r : JsonVal) :
    ∃ m2 : List (String × JsonVal),
      (∀ k, k ∉ dirKeys → k ∉ routesKeys →
        ¬ k = "directions_extraction_error" → getVal m2 k = none) ∧
      (extract_key_metrics d r = m2 ∨
       ∃ e : PyErr, extract_key_metrics d r
         = compTry (upsert m2 "routes_extraction_error" (.str e.msg))) := by
  unfold extract_key_metrics
  cases hde : (dirTry d []).2 with
  | none =>
    simp only [hde]
    refine ⟨(routesTry r (dirTry d []).1).1, ?_, ?_⟩
    · intro k hk1 hk2 _
      rw [routesTry_preserves r _ k hk2, dirTry_preserves d [] k hk1]
      rfl
    · cases hre : (routesTry r (dirTry d []).1).2 with
      | none => left; rfl
      | some e => right; exact ⟨e, rfl⟩
  | some e0 =>
    simp only [hde]
    refine ⟨(routesTry r (upsert (dirTry d []).1 "directions_extraction_error"
      (.str e0.msg))).1, ?_, ?_⟩
    · intro k hk1 hk2 hk3
      rw [routesTry_preserves r _ k hk2,
        getVal_upsert_ne _ _ _ _ (Ne.symm hk3),
        dirTry_preserves d [] k hk1]
      rfl
    · cases hre : (routesTry r (upsert (dirTry d []).1
          "directions_extraction_error" (.str e0.msg))).2 with
      | none => left; rfl
      | some e => right; exact ⟨e, rfl⟩

theorem compTry_getValD (m : List (String × JsonVal)) (k : String)
    (dflt : JsonVal) (hka : ¬ k = "distance_difference_meters")
    (hk0 : ¬ k = "duration_difference_seconds")
    (hk1 : ¬ k = "response_time_difference_ms") (hk2 : ¬ k = "faster_api")
    (hk3 : ¬ k = "comparison_error") :
    getValD (compTry m) k dflt = getValD m k dflt := by
  simp [getValD, compTry_preserves m k hka hk0 hk1 hk2 hk3]

/-- **C2** (amended): a derived difference field appears in the metrics only
under the code's actual guards: for `distance_difference_meters` and
`response_time_difference_ms`, only when both operands (as recorded in the
returned metrics) are present and strictly positive; for
`duration_difference_seconds`, only when the directions duration is strictly
positive and the routes duration is a non-empty string ending in `"s"` —
the sign of its parsed numeric value is NOT checked (see the
counterexample).  Otherwise the field is absent, never zero-filled. -/
theorem c2_derived_difference_only_if (d r : JsonVal) :
    (hasKey (extract_key_metrics d r) "distance_difference_meters" = true →
      pyGtZero (getValD (extract_key_metrics d r)
        "directions_distance_meters" (.num 0)) = .ok true ∧
      pyGtZero (getValD (extract_key_metrics d r)
        "routes_distance_meters" (.num 0)) = .ok true) ∧
    (hasKey (extract_key_metrics d r) "duration_difference_seconds" = true →
      pyGtZero (getValD (extract_key_metrics d r)
        "directions_duration_seconds" (.num 0)) = .ok true ∧
      ∃ s, getVal (extract_key_metrics d r) "routes_duration"
          = some (.str s) ∧ ¬ s = "" ∧ endsWithS s = true) ∧
    (hasKey (extract_key_metrics d r) "response_time_difference_ms" = true →
      pyGtZero (getValD (extract_key_metrics d r)
        "directions_response_time_ms" (.num 0)) = .ok true ∧
      pyGtZero (getValD (extract_key_metrics d r)
        "routes_response_time_ms" (.num 0)) = .ok true) := by
  obtain ⟨m2, hfresh, hcase⟩ := extract_shape d r
  have hddm2 : getVal m2 "distance_difference_meters" = none :=
    hfresh _ (by decide) (by decide) (by decide)
  have hdds2 : getVal m2 "duration_difference_seconds" = none :=
    hfresh _ (by decide) (by decide) (by decide)
  have hrtd2 : getVal m2 "response_time_difference_ms" = none :=
    hfresh _ (by decide) (by decide) (by decide)
  rcases hcase with heq | ⟨e, heq⟩
  · refine ⟨?_, ?_, ?_⟩
    · intro h; rw [heq] at h; simp [hasKey, hddm2] at h
    · intro h; rw [heq] at h; simp [hasKey, hdds2] at h
    · intro h; rw [heq] at h; simp [hasKey, hrtd2] at h
  · have hddm3 : getVal (upsert m2 "routes_extraction_error" (.str e.msg))
        "distance_difference_meters" = none := by
      rw [getVal_upsert_ne _ _ _ _ (by decide)]; exact hddm2
    have hdds3 : getVal (upsert m2 "routes_extraction_error" (.str e.msg))
        "duration_difference_seconds" = none := by
      rw [getVal_upsert_ne _ _ _ _ (by decide)]; exact hdds2
    have hrtd3 : getVal (upsert m2 "routes_extraction_error" (.str e.msg))
        "response_time_difference_ms" = none := by
      rw [getVal_upsert_ne _ _ _ _ (by decide)]; exact hrtd2
    refine ⟨?_, ?_, ?_⟩
    · intro h
      rw [heq] at h
      have hb := compTry_hasKey_to_body _ _ (by decide) h
      rcases compBody_ddm_only_if _ hb with hl | ⟨g1, g2⟩
      · simp [hasKey, hddm3] at hl
      · constructor
        · rw [heq, compTry_getValD _ _ _ (by decide) (by decide) (by decide)
            (by decide) (by decide)]
          exact g1
        · rw [heq, compTry_getValD _ _ _ (by decide) (by decide) (by decide)
            (by decide) (by decide)]
          exact g2
    · intro h
      rw [heq] at h
      have hb := compTry_hasKey_to_body _ _ (by decide) h
      rcases compBody_dds_only_if _ hb with hl | ⟨hg, s, hgv, hne, hends⟩
      · simp [hasKey, hdds3] at hl
      · constructor
        · rw [heq, compTry_getValD _ _ _ (by decide) (by decide) (by decide)
            (by decide) (by decide)]
          exact hg
        · refine ⟨s, ?_, hne, hends⟩
          rw [heq, compTry_preserves _ _ (by decide) (by decide) (by decide)
            (by decide) (by decide)]
          exact hgv
    · intro h
      rw [heq] at h
      have hb := compTry_hasKey_to_body _ _ (by decide) h
      rcases compBody_rtd_only_if _ hb with hl | ⟨g1, g2⟩
      · simp [hasKey, hrtd3] at hl
      · constructor
        · rw [heq, compTry_getValD _ _ _ (by decide) (by decide) (by decide)
            (by decide) (by decide)]
          exact g1
        · rw [heq, compTry_getValD _ _ _ (by decide) (by decide) (by decide)
            (by decide) (by decide)]
          exact g2

/-- **C7**: the routes duration is compared only after parsing its `"...s"`
string form: a duration value that is a string not ending in `"s"` never
yields a `duration_difference_seconds` field, and whenever that field is
present it equals the absolute difference between the directions duration
and the numeric value parsed from the routes duration with the trailing
`"s"` removed.  Extraction always returns the remaining metrics mapping. -/
theorem c7_routes_duration_parsing (d r : JsonVal) :
    (∀ s, getVal (extract_key_metrics d r) "routes_duration"
        = some (.str s) → endsWithS s = false →
      hasKey (extract_key_metrics d r) "duration_difference_seconds"
        = false) ∧
    (hasKey (extract_key_metrics d r) "duration_difference_seconds" = true →
      ∃ s q dv x,
        getVal (extract_key_metrics d r) "routes_duration"
          = some (.str s) ∧
        endsWithS s = true ∧
        floatParse (String.mk s.toList.dropLast) = .ok q ∧
        getVal (extract_key_metrics d r) "directions_duration_seconds"
          = some dv ∧
        toNum dv = some x ∧
        getVal (extract_key_metrics d r) "duration_difference_seconds"
          = some (.num |x - q|)) := by
  obtain ⟨m2, hfresh, hcase⟩ := extract_shape d r
  have hdds2 : getVal m2 "duration_difference_seconds" = none :=
    hfresh _ (by decide) (by decide) (by decide)
  rcases hcase with heq | ⟨e, heq⟩
  · constructor
    · intro s _ _
      rw [heq]
      simp [hasKey, hdds2]
    · intro h
      rw [heq] at h
      simp [hasKey, hdds2] at h
  · have hdds3 : getVal (upsert m2 "routes_extraction_error" (.str e.msg))
        "duration_difference_seconds" = none := by
      rw [getVal_upsert_ne _ _ _ _ (by decide)]; exact hdds2
    have hmf : hasKey (upsert m2 "routes_extraction_error" (.str e.msg))
        "duration_difference_seconds" = false := by
      simp [hasKey, hdds3]
    constructor
    · intro s hs hends
      rw [heq]
      cases hck : hasKey
          (compTry (upsert m2 "routes_extraction_error" (.str e.msg)))
          "duration_difference_seconds" with
      | false => rfl
      | true =>
        exfalso
        have hb := compTry_hasKey_to_body _ _ (by decide) hck
        rcases compBody_dds_only_if _ hb with hl | ⟨_, s', hgv', _, hends'⟩
        · simp [hasKey, hdds3] at hl
        · have hs3 : getVal (upsert m2 "routes_extraction_error" (.str e.msg))
              "routes_duration" = some (.str s) := by
            rw [heq, compTry_preserves _ _ (by decide) (by decide) (by decide)
              (by decide) (by decide)] at hs
            exact hs
          rw [hs3] at hgv'
          have hss : s = s' := by simpa using hgv'
          rw [← hss] at hends'
          rw [hends] at hends'
          exact Bool.false_ne_true hends'
    · intro h
      rw [heq] at h
      obtain ⟨s, q, dv, x, hgv, hends, hfp, hdd, hx, hval⟩ :=
        compTry_dds_value _ hmf h
      refine ⟨s, q, dv, x, ?_, hends, hfp, ?_, hx, ?_⟩
      · rw [heq, compTry_preserves _ _ (by decide) (by decide) (by decide)
          (by decide) (by decide)]
        exact hgv
      · rw [heq, compTry_preserves _ _ (by decide) (by decide) (by decide)
          (by decide) (by decide)]
        exact hdd
      · rw [heq]
        exact hval

/-! ### Concrete scenarios -/

/-- The spec's end-to-end scenario: service A returns one route with one
leg, distance 5000 m and duration 600 s. -/
def scenarioDirectionsResp : JsonVal :=
  .obj [("routes", .arr [.obj [("legs", .arr [.obj [
    ("distance", .obj [("text", .str "5.0 km"), ("value", .num 5000)]),
    ("duration", .obj [("text", .str "10 mins"), ("value", .num 600)]),
    ("start_address", .str "Origin A"), ("end_address", .str "Dest B")]])]]),
    ("status", .str "OK"), ("_response_time_ms", .num 100)]

/-- The spec's end-to-end scenario: service B returns one route with
`distanceMeters = 5050` and `duration = "620s"`. -/
def scenarioRoutesResp : JsonVal :=
  .obj [("routes", .arr [.obj [("distanceMeters", .num 5050),
    ("duration", .str "620s")]]),
    ("_response_time_ms", .num 120)]

/-- Lines 227-246 of `enhanced_comparison.py`: the assembled result row —
basic fields, then `update` with the key metrics and with both fully
flattened responses. -/
def resultRow (idx : Nat) (cxGh rxGh : String) (cxLat cxLng rxLat rxLng : Rat)
    (directionsResp routesResp : JsonVal) : List (String × JsonVal) :=
  let base : List (String × JsonVal) :=
    [("pair_index", .num idx), ("cx_geohash", .str cxGh),
     ("rx_geohash", .str rxGh), ("cx_lat", .num cxLat),
     ("cx_lng", .num cxLng), ("rx_lat", .num rxLat), ("rx_lng", .num rxLng)]
  let r1 := pyUpdate base (extract_key_metrics directionsResp routesResp)
  let r2 := pyUpdate r1 (flatten_dict directionsResp "directions_full" "_")
  pyUpdate r2 (flatten_dict routesResp "routes_full" "_")

/-- The assembled row for the end-to-end scenario (geohash pair
`tub3xru`/`tub6xru`, whose decoded coordinates are the published
approximations). -/
def scenarioRow : List (String × JsonVal) :=
  resultRow 1 "tub3xru" "tub6xru" (264692/10000) (803030/10000)
    (264732/10000) (803515/10000) scenarioDirectionsResp scenarioRoutesResp

/-- **C1**: evaluating the code on the spec's end-to-end scenario.  Both
flattened responses are present and there is no extraction-error field, but
— contrary to the claim — the row contains NO `distance_difference_meters`
and NO `duration_difference_seconds`: the comparison block (lines 137-160)
is nested inside the routes `except` handler and the routes extraction
succeeds here, so the block never runs. -/
theorem c1_scenario_row_missing_differences :
    hasKey scenarioRow "distance_difference_meters" = false ∧
    hasKey scenarioRow "duration_difference_seconds" = false ∧
    hasKey scenarioRow "directions_extraction_error" = false ∧
    hasKey scenarioRow "routes_extraction_error" = false ∧
    hasKey scenarioRow "comparison_error" = false ∧
    getVal scenarioRow "directions_distance_meters" = some (.num 5000) ∧
    getVal scenarioRow "routes_distance_meters" = some (.num 5050) ∧
    getVal scenarioRow "routes_duration" = some (.str "620s") ∧
    getVal scenarioRow "directions_full_status" = some (.str "OK") ∧
    getVal scenarioRow "routes_full_routes_0_distanceMeters"
      = some (.num 5050) :=
  ⟨rfl, rfl, rfl, rfl, rfl, rfl, rfl, rfl, rfl, rfl⟩

/-- Directions response whose leg has no text fields and duration 600 s,
used for exercising the comparison block through the `except` path. -/
def durZeroDirections : JsonVal :=
  .obj [("routes", .arr [.obj [("legs", .arr [.obj [
    ("distance", .obj [("value", .num 5000)]),
    ("duration", .obj [("value", .num 600)])]])]]),
    ("_response_time_ms", .num 100)]

/-- Routes response with `duration = "0s"` and a malformed `legs` value,
so the routes extraction raises after recording distance and duration. -/
def durZeroRoutes : JsonVal :=
  .obj [("routes", .arr [.obj [("distanceMeters", .num 100),
    ("duration", .str "0s"), ("legs", .num 5)]])]

/-- Metrics recorded by the directions block for `durZeroDirections`. -/
def dzDirMetrics : List (String × JsonVal) :=
  [("directions_distance_text", .str ""),
   ("directions_distance_meters", .num 5000),
   ("directions_duration_text", .str ""),
   ("directions_duration_seconds", .num 600),
   ("directions_start_address", .str ""),
   ("directions_end_address", .str ""),
   ("directions_status", .str "UNKNOWN"),
   ("directions_response_time_ms", .num 100),
   ("directions_has_error", .bool false)]

/-- Metrics after the routes block raises on `durZeroRoutes`. -/
def dzBothMetrics : List (String × JsonVal) :=
  dzDirMetrics ++
  [("routes_distance_meters", .num 100),
   ("routes_duration", .str "0s")]

/-- The full extractor output for the `"0s"` scenario. -/
def durZeroMetrics : List (String × JsonVal) :=
  dzBothMetrics ++
  [("routes_extraction_error",
     .str "TypeError: object is not subscriptable"),
   ("distance_difference_meters", .num 4900),
   ("duration_difference_seconds", .num 600)]

/-- The metrics state handed to the comparison block in the `"0s"`
scenario. -/
def dzErrMetrics : List (String × JsonVal) :=
  upsert dzBothMetrics "routes_extraction_error"
    (.str "TypeError: object is not subscriptable")

theorem compBody_dzErr : compBody dzErrMetrics = (durZeroMetrics, none) := by
  unfold compBody tryStep
  rw [show pyGtZero (getValD dzErrMetrics "directions_distance_meters"
    (.num 0)) = .ok true from rfl]
  simp only [Bool.not_true, Bool.false_eq_true, if_false]
  rw [show pyGtZero (getValD dzErrMetrics "routes_distance_meters" (.num 0))
    = .ok true from rfl]
  simp only [Bool.not_true, Bool.false_eq_true, if_false]
  rw [show pyDictIndex dzErrMetrics "directions_distance_meters"
    = .ok (.num 5000) from rfl]
  simp only []
  rw [show pyDictIndex dzErrMetrics "routes_distance_meters"
    = .ok (.num 100) from rfl]
  simp only []
  rw [show pyAbsSub (.num 5000) (.num 100) = .ok (.num 4900) from rfl]
  simp only []
  unfold compDur tryStep
  rw [show pyGtZero (getValD
      (upsert dzErrMetrics "distance_difference_meters" (JsonVal.num 4900))
      "directions_duration_seconds" (.num 0)) = .ok true from rfl]
  simp only [Bool.not_true, Bool.false_eq_true, if_false]
  rw [show truthy (getValD
      (upsert dzErrMetrics "distance_difference_meters" (JsonVal.num 4900))
      "routes_duration" .null) = true from rfl]
  simp only [Bool.not_true, Bool.false_eq_true, if_false]
  rw [show pyDictIndex
      (upsert dzErrMetrics "distance_difference_meters" (JsonVal.num 4900))
      "routes_duration" = .ok (.str "0s") from rfl]
  simp only []
  rw [show pyEndsWithS (.str "0s") = .ok true from rfl]
  simp only [Bool.not_true, Bool.false_eq_true, if_false]
  rw [show pySliceDropLast (.str "0s") = .ok (.str "0") from rfl]
  simp only []
  rw [show pyFloat (.str "0") = .ok 0 from rfl]
  simp only []
  rw [show pyDictIndex
      (upsert dzErrMetrics "distance_difference_meters" (JsonVal.num 4900))
      "directions_duration_seconds" = .ok (.num 600) from rfl]
  simp only []
  rw [show pyAbsSub (.num 600) (.num 0) = .ok (.num 600) from rfl]
  simp only []
  rfl

theorem extract_durZero_eq :
    extract_key_metrics durZeroDirections durZeroRoutes = durZeroMetrics := by
  have hA : dirTry durZeroDirections [] = (dzDirMetrics, none) := rfl
  have hB : routesTry durZeroRoutes dzDirMetrics
      = (dzBothMetrics, some (.typeError "object is not subscriptable")) := rfl
  have hC : compTry dzErrMetrics = durZeroMetrics := by
    unfold compTry
    rw [compBody_dzErr]
  unfold extract_key_metrics
  rw [hA]
  simp only []
  rw [hB]
  exact hC

/-- **C2** (counterexample): with routes duration `"0s"` the parsed operand
is 0 — not strictly positive — yet `duration_difference_seconds` is
emitted (value 600), so the claim's "only when both operands are strictly
positive" fails for the duration field. -/
theorem c2_counterexample :
    hasKey (extract_key_metrics durZeroDirections durZeroRoutes)
      "duration_difference_seconds" = true ∧
    getVal (extract_key_metrics durZeroDirections durZeroRoutes)
      "routes_duration" = some (.str "0s") ∧
    getVal (extract_key_metrics durZeroDirections durZeroRoutes)
      "duration_difference_seconds" = some (.num 600) ∧
    floatParse "0" = .ok 0 ∧ ¬ ((0 : Rat) > 0) :=
  ⟨by rw [extract_durZero_eq]; rfl, by rw [extract_durZero_eq]; rfl,
   by rw [extract_durZero_eq]; rfl, rfl, by norm_num⟩

/-- **C2** witness: the amended only-if conditions, instantiated at an
input that does emit `distance_difference_meters`. -/
theorem c2_derived_difference_only_if_witness :
    hasKey (extract_key_metrics durZeroDirections durZeroRoutes)
      "distance_difference_meters" = true ∧
    (pyGtZero (getValD (extract_key_metrics durZeroDirections durZeroRoutes)
        "directions_distance_meters" (.num 0)) = .ok true ∧
     pyGtZero (getValD (extract_key_metrics durZeroDirections durZeroRoutes)
        "routes_distance_meters" (.num 0)) = .ok true) :=
  ⟨by rw [extract_durZero_eq]; rfl,
   (c2_derived_difference_only_if durZeroDirections durZeroRoutes).1
     (by rw [extract_durZero_eq]; rfl)⟩

/-- Routes response whose duration `"620"` lacks the `"s"` suffix (again
reaching the comparison block through the `except` path). -/
def noSuffixRoutes : JsonVal :=
  .obj [("routes", .arr [.obj [("distanceMeters", .num 100),
    ("duration", .str "620"), ("legs", .num 5)]])]

/-- The full extractor output for the suffix-free `"620"` scenario. -/
def noSuffixMetrics : List (String × JsonVal) :=
  dzDirMetrics ++
  [("routes_distance_meters", .num 100),
   ("routes_duration", .str "620"),
   ("routes_extraction_error",
     .str "TypeError: object is not subscriptable"),
   ("distance_difference_meters", .num 4900)]

theorem extract_noSuffix_eq :
    extract_key_metrics durZeroDirections noSuffixRoutes
      = noSuffixMetrics := by
  have hA : dirTry durZeroDirections [] = (dzDirMetrics, none) := rfl
  have hB : routesTry noSuffixRoutes dzDirMetrics
      = (dzDirMetrics ++
          [("routes_distance_meters", .num 100),
           ("routes_duration", .str "620")],
         some (.typeError "object is not subscriptable")) := rfl
  have hC : compTry (upsert (dzDirMetrics ++
        [("routes_distance_meters", .num 100),
         ("routes_duration", .str "620")]) "routes_extraction_error"
      (.str (PyErr.msg (.typeError "object is not subscriptable"))))
      = noSuffixMetrics := rfl
  unfold extract_key_metrics
  rw [hA]
  simp only []
  rw [hB]
  exact hC

/-- **C7** witness: a non-empty duration string without the `"s"` suffix
is treated as unavailable — no `duration_difference_seconds` — while the
distance metrics are still extracted. -/
theorem c7_routes_duration_parsing_witness :
    getVal (extract_key_metrics durZeroDirections noSuffixRoutes)
      "routes_duration" = some (.str "620") ∧
    endsWithS "620" = false ∧
    hasKey (extract_key_metrics durZeroDirections noSuffixRoutes)
      "duration_difference_seconds" = false ∧
    hasKey (extract_key_metrics durZeroDirections noSuffixRoutes)
      "distance_difference_meters" = true :=
  ⟨by rw [extract_noSuffix_eq]; rfl, by decide,
    (c7_routes_duration_parsing durZeroDirections noSuffixRoutes).1
      "620" (by rw [extract_noSuffix_eq]; rfl) (by decide),
    by rw [extract_noSuffix_eq]; rfl⟩

/-- Responses in which both services report only their latency. -/
def latOnlyDirections : JsonVal := .obj [("_response_time_ms", .num 100)]

/-- Routes response reporting only its latency. -/
def latOnlyRoutes : JsonVal := .obj [("_response_time_ms", .num 200)]

/-- **C8**: both latencies are present and strictly positive, yet — contrary
to the claim — the metrics contain neither `response_time_difference_ms`
nor `faster_api`: the comparison block only runs inside the routes
`except` handler, and any exception there occurs before
`routes_response_time_ms` is recorded, so the guard can never pass. -/
theorem c8_latency_difference_never_emitted :
    extract_key_metrics latOnlyDirections latOnlyRoutes =
      [("directions_status", .str "UNKNOWN"),
       ("directions_response_time_ms", .num 100),
       ("directions_has_error", .bool false),
       ("routes_response_time_ms", .num 200),
       ("routes_has_error", .bool false)] ∧
    pyGtZero (getValD (extract_key_metrics latOnlyDirections latOnlyRoutes)
      "directions_response_time_ms" (.num 0)) = .ok true ∧
    pyGtZero (getValD (extract_key_metrics latOnlyDirections latOnlyRoutes)
      "routes_response_time_ms" (.num 0)) = .ok true ∧
    hasKey (extract_key_metrics latOnlyDirections latOnlyRoutes)
      "response_time_difference_ms" = false ∧
    hasKey (extract_key_metrics latOnlyDirections latOnlyRoutes)
      "faster_api" = false :=
  ⟨rfl, rfl, rfl, rfl, rfl⟩

/-! ### Geohash decoding and the processing loop (C6) -/

/-- The error signalled by the geo-decoder (`DecodeError`). -/
inductive GeoErr
  | decodeError
deriving Repr

/-- Modelled from the spec: the 32-symbol geohash alphabet, a fixed mapping
from character to 5-bit value given by position. -/
def geohashAlphabet : List Char :=
  "0123456789bcdefghjkmnpqrstuvwxyz".toList

/-- Position of a character in a symbol list, `none` when absent. -/
def idxIn : List Char → Char → Option Nat
  | [], _ => none
  | a :: l, c => if a = c then some 0 else (idxIn l c).map (· + 1)

/-- Modelled from the spec: the five bits of one symbol value, most
significant first. -/
def charBits (v : Nat) : List Bool :=
  [v.testBit 4, v.testBit 3, v.testBit 2, v.testBit 1, v.testBit 0]

/-- Modelled from the spec: the bit stream of a geohash, `none` as soon as
a character falls outside the alphabet. -/
def geohashBits : List Char → Option (List Bool)
  | [] => some []
  | c :: l =>
    match idxIn geohashAlphabet c, geohashBits l with
    | some v, some bs => some (charBits v ++ bs)
    | _, _ => none

/-- An interval with dyadic endpoints: `[lo / 2 ^ scale, hi / 2 ^ scale]`.
Exact binary bisection keeps every endpoint of the decoder in this form. -/
structure DyadicIv where
  lo : Int
  hi : Int
  scale : Nat
deriving Repr

/-- Modelled from the spec: narrow an interval to the half selected by one
bit (upper half on 1, lower half on 0). -/
def bisect (iv : DyadicIv) (b : Bool) : DyadicIv :=
  if b then ⟨iv.lo + iv.hi, 2 * iv.hi, iv.scale + 1⟩
  else ⟨2 * iv.lo, iv.lo + iv.hi, iv.scale + 1⟩

/-- Modelled from the spec: consume the bit stream, alternately bisecting
the longitude interval then the latitude interval, starting with
longitude. -/
def decodeBits : List Bool → DyadicIv → DyadicIv → Bool → DyadicIv × DyadicIv
  | [], lon, lat, _ => (lon, lat)
  | b :: bs, lon, lat, isLon =>
    if isLon then decodeBits bs (bisect lon b) lat false
    else decodeBits bs lon (bisect lat b) true

/-- Midpoint of a dyadic interval, as a rational. -/
def ivMid (iv : DyadicIv) : Rat :=
  mkRat (iv.lo + iv.hi) (2 ^ (iv.scale + 1))

/-- Modelled from the spec: `decode(geohash) -> (lat, lng) | DecodeError`.
Longitude starts at `[-180, 180]`, latitude at `[-90, 90]`; after all
characters are consumed the midpoints are returned, latitude first.  The
empty string and any string with a character outside the alphabet signal
`DecodeError`. -/
def decode (s : String) : Except GeoErr (Rat × Rat) :=
  if s.toList.isEmpty then .error .decodeError
  else
    match geohashBits s.toList with
    | none => .error .decodeError
    | some bs =>
      let p := decodeBits bs ⟨-180, 180, 0⟩ ⟨-90, 90, 0⟩ true
      .ok (ivMid p.2, ivMid p.1)

/-- Lines 20-25 of `enhanced_comparison.py`: `pgh.decode` inside a bare
`try` whose `except` returns `(None, None)` — a decoding failure, or a
non-string cell value (on which `pgh.decode` raises), gives two `None`s. -/
def geohash_to_coords (v : JsonVal) : Option Rat × Option Rat :=
  match v with
  | .str s =>
    match decode s with
    | .ok (lat, lng) => (some lat, some lng)
    | .error _ => (none, none)
  | _ => (none, none)

/-- Line 204 of `enhanced_comparison.py`: the flexible customer-geohash
column lookup with default `''`. -/
def cxOf (row : List (String × JsonVal)) : JsonVal :=
  getValD row "CX_GH"
    (getValD row "customer_geohash" (getValD row "cx_geohash" (.str "")))

/-- Line 205 of `enhanced_comparison.py`: the flexible restaurant-geohash
column lookup with default `''`. -/
def rxOf (row : List (String × JsonVal)) : JsonVal :=
  getValD row "RX_GH"
    (getValD row "restaurant_geohash" (getValD row "rx_geohash" (.str "")))

/-- Lines 227-246 of `enhanced_comparison.py`: the result row assembled for
one processed input row (`pair_index = index + 1`, raw geohash cells,
coordinates, key metrics, both flattened responses). -/
def assembleRow (idx : Nat) (cx rx : JsonVal) (cxLat cxLng rxLat rxLng : Rat)
    (directionsResp routesResp : JsonVal) : List (String × JsonVal) :=
  let base : List (String × JsonVal) :=
    [("pair_index", .num (idx + 1)), ("cx_geohash", cx), ("rx_geohash", rx),
     ("cx_lat", .num cxLat), ("cx_lng", .num cxLng),
     ("rx_lat", .num rxLat), ("rx_lng", .num rxLng)]
  let r1 := pyUpdate base (extract_key_metrics directionsResp routesResp)
  let r2 := pyUpdate r1 (flatten_dict directionsResp "directions_full" "_")
  pyUpdate r2 (flatten_dict routesResp "routes_full" "_")

/-- Lines 200-246 of `enhanced_comparison.py`: one iteration of the
processing loop — `none` when the row is skipped (falsy geohash cell, or a
`None` among the four decoded coordinates), otherwise the assembled result
row.  The two API calls are oracle parameters mapping the four coordinates
to the response. -/
def processedRow (apiD apiR : Rat → Rat → Rat → Rat → JsonVal) (idx : Nat)
    (row : List (String × JsonVal)) : Option (List (String × JsonVal)) :=
  if !truthy (cxOf row) || !truthy (rxOf row) then none
  else
    match geohash_to_coords (cxOf row), geohash_to_coords (rxOf row) with
    | (some cxLat, some cxLng), (some rxLat, some rxLng) =>
      some (assembleRow idx (cxOf row) (rxOf row) cxLat cxLng rxLat rxLng
        (apiD cxLat cxLng rxLat rxLng) (apiR cxLat cxLng rxLat rxLng))
    | _, _ => none

/-- Lines 200-247 of `enhanced_comparison.py`: the processing loop over the
input rows; skipped rows contribute nothing and processing continues. -/
def process_pairs (apiD apiR : Rat → Rat → Rat → Rat → JsonVal) :
    Nat → List (List (String × JsonVal)) → List (List (String × JsonVal))
  | _, [] => []
  | idx, row :: rest =>
    match processedRow apiD apiR idx row with
    | none => process_pairs apiD apiR (idx + 1) rest
    | some r => r :: process_pairs apiD apiR (idx + 1) rest

theorem idxIn_eq_none {l : List Char} {c : Char} (h : l.contains c = false) :
    idxIn l c = none := by
  induction l with
  | nil => rfl
  | cons a t ih =>
    have hs : (c == a) = false ∧ t.contains c = false := by
      simpa [List.contains_cons] using h
    have ha : ¬ a = c := by
      intro he
      rw [he] at hs
      simp at hs
    simp [idxIn, ha, ih hs.2]

theorem geohashBits_eq_none {l : List Char} {c : Char} (hc : c ∈ l)
    (h : geohashAlphabet.contains c = false) : geohashBits l = none := by
  induction l with
  | nil => cases hc
  | cons a t ih =>
    rcases List.mem_cons.mp hc with rfl | hc2
    · unfold geohashBits
      rw [idxIn_eq_none h]
    · unfold geohashBits
      rw [ih hc2]
      cases idxIn geohashAlphabet a <;> rfl

theorem decode_invalid {s : String}
    (h : s = "" ∨ ∃ c, c ∈ s.toList ∧ geohashAlphabet.contains c = false) :
    decode s = .error .decodeError := by
  rcases h with rfl | ⟨c, hc, hvc⟩
  · rfl
  · unfold decode
    cases hl : s.toList with
    | nil =>
      rw [hl] at hc
      cases hc
    | cons a t =>
      rw [hl] at hc
      rw [geohashBits_eq_none hc hvc]
      rfl

/-- **C6**: decoding the empty string, or any string with a character
outside the 32-symbol alphabet, signals `DecodeError`; a row whose customer
geohash is such a string is then skipped by the processing loop — the
result set grows by zero for that row and processing continues with the
remaining rows instead of aborting. -/
theorem c6_decode_error_skips_row (s : String)
    (hs : s = "" ∨ ∃ c, c ∈ s.toList ∧ geohashAlphabet.contains c = false)
    (apiD apiR : Rat → Rat → Rat → Rat → JsonVal) (idx : Nat)
    (row : List (String × JsonVal)) (rest : List (List (String × JsonVal)))
    (hrow : cxOf row = .str s) :
    decode s = .error .decodeError ∧
    processedRow apiD apiR idx row = none ∧
    process_pairs apiD apiR idx (row :: rest)
      = process_pairs apiD apiR (idx + 1) rest := by
  have hdec : decode s = .error .decodeError := decode_invalid hs
  have hskip : processedRow apiD apiR idx row = none := by
    unfold processedRow
    rw [hrow]
    cases htr : (!truthy (JsonVal.str s) || !truthy (rxOf row)) with
    | true => simp [htr]
    | false =>
      simp only [htr, Bool.false_eq_true, if_false]
      have hco : geohash_to_coords (.str s) = (none, none) := by
        unfold geohash_to_coords
        simp only []
        rw [hdec]
      rw [hco]
  refine ⟨hdec, hskip, ?_⟩
  conv_lhs => rw [process_pairs]
  rw [hskip]

/-- **C6** witness: the concrete geohash `"tub3xr!"` (with the
out-of-alphabet character `'!'`) fails to decode, and the only input row
carrying it yields an empty result set. -/
theorem c6_decode_error_skips_row_witness :
    decode "tub3xr!" = .error .decodeError ∧
    process_pairs (fun _ _ _ _ => .null) (fun _ _ _ _ => .null) 0
      [[("CX_GH", .str "tub3xr!")]] = [] :=
  have h := c6_decode_error_skips_row "tub3xr!"
    (Or.inr ⟨'!', by decide, by decide⟩)
    (fun _ _ _ _ => .null) (fun _ _ _ _ => .null) 0
    [("CX_GH", JsonVal.str "tub3xr!")] [] rfl
  ⟨h.1, by rw [h.2.2]; rfl⟩

/-! ### Column organization of the output (C9) -/

/-- Fold new keys into a column list, keeping first-seen order. -/
def addCols : List String → List String → List String
  | acc, [] => acc
  | acc, k :: ks => addCols (if acc.contains k then acc else acc ++ [k]) ks

/-- Column-name union of the result rows in first-seen order (the columns
of the DataFrame built from the list of result dicts). -/
def dfColumns (rows : List (List (String × JsonVal))) : List String :=
  rows.foldl (fun acc r => addCols acc (keysOf r)) []

/-- Lines 257-266 of `enhanced_comparison.py`: the known-redundant columns
removed after assembly. -/
def cols_to_remove : List String :=
  ["directions_full__response_time_ms", "routes_full__response_time_ms",
   "distance_difference_percent", "duration_difference_percent",
   "timestamp",
   "directions_response_time_ms", "routes_response_time_ms"]

/-- Lines 269-271 of `enhanced_comparison.py`: drop each listed column
that is present. -/
def dropCols : List String → List String → List String
  | [], cols => cols
  | r :: rs, cols =>
    dropCols rs (if cols.contains r then cols.filter (fun c => !(c == r))
                 else cols)

/-- Line 274 of `enhanced_comparison.py`. -/
def basic_cols : List String :=
  ["pair_index", "cx_geohash", "rx_geohash", "cx_lat", "cx_lng",
   "rx_lat", "rx_lng"]

/-- Python `x in col` on strings: substring containment. -/
def strInfixB (x col : String) : Bool := infixB x.toList col.toList

/-- Python `col.startswith p` (also the tuple form, via `||`). -/
def startsWithB (p s : String) : Bool := p.toList.isPrefixOf s.toList

/-- Line 275 of `enhanced_comparison.py`: columns whose name contains one
of the comparison substrings. -/
def comparison_cols (cols : List String) : List String :=
  cols.filter (fun col =>
    ["distance_difference", "duration_difference",
     "response_time_difference", "faster_api"].any
      (fun x => strInfixB x col))

/-- Line 276 of `enhanced_comparison.py`: per-service key-metric columns —
`directions_`/`routes_` prefixed, not `directions_full`/`routes_full`
prefixed, and not basic. -/
def key_metric_cols (cols : List String) : List String :=
  cols.filter (fun col =>
    (startsWithB "directions_" col || startsWithB "routes_" col)
    && !(startsWithB "directions_full" col || startsWithB "routes_full" col)
    && !basic_cols.contains col)

/-- Lines 279-291 of `enhanced_comparison.py`: the curated side-by-side
groups. -/
def side_by_side_groups : List (List String) :=
  [["directions_distance_text", "routes_distance_meters",
    "directions_distance_meters"],
   ["directions_duration_text", "routes_duration",
    "directions_duration_seconds"],
   ["directions_full_routes_0_overview_polyline_points",
    "routes_full_routes_0_legs_0_polyline_encodedPolyline"],
   ["directions_full_routes_0_legs_0_distance_text",
    "routes_full_routes_0_legs_0_distanceMeters",
    "directions_full_routes_0_legs_0_distance_value"],
   ["directions_full_routes_0_legs_0_duration_text",
    "routes_full_routes_0_legs_0_duration",
    "directions_full_routes_0_legs_0_duration_value"]]

/-- Lines 294-298 of `enhanced_comparison.py`: the available side-by-side
columns, in curated group order. -/
def side_by_side_cols (cols : List String) : List String :=
  (side_by_side_groups.map (fun g =>
    g.filter (fun c => cols.contains c))).flatten

/-- Line 301 of `enhanced_comparison.py`: key metrics minus the
side-by-side columns. -/
def key_metric_cols2 (cols : List String) : List String :=
  (key_metric_cols cols).filter (fun c => !(side_by_side_cols cols).contains c)

/-- Line 302 of `enhanced_comparison.py`: flattened raw-response columns
minus the side-by-side columns. -/
def full_response_cols (cols : List String) : List String :=
  cols.filter (fun col =>
    (startsWithB "directions_full" col || startsWithB "routes_full" col)
    && !(side_by_side_cols cols).contains col)

/-- Line 305 of `enhanced_comparison.py`: the five priority groups,
concatenated. -/
def ordered_cols (cols : List String) : List String :=
  basic_cols ++ comparison_cols cols ++ side_by_side_cols cols
  ++ key_metric_cols2 cols ++ full_response_cols cols

/-- Line 306 of `enhanced_comparison.py`: restrict to the columns actually
present. -/
def available_cols (cols : List String) : List String :=
  (ordered_cols cols).filter (fun c => cols.contains c)

/-- The column list kept after the removal step (lines 257-271). -/
def keptColumns (rows : List (List (String × JsonVal))) : List String :=
  dropCols cols_to_remove (dfColumns rows)

/-- Lines 253-307 of `enhanced_comparison.py`: the final organized column
list of the written csv (`reindex(columns=available_cols)`). -/
def organizeColumns (rows : List (List (String × JsonVal))) : List String :=
  available_cols (keptColumns rows)

theorem dropCols_sublist (rs cols : List String) :
    (dropCols rs cols).Sublist cols := by
  induction rs generalizing cols with
  | nil => exact List.Sublist.refl cols
  | cons r rs ih =>
    refine (ih _).trans ?_
    by_cases hc : cols.contains r = true
    · simp only [dropCols, hc, if_true]
      exact List.filter_sublist cols
    · simp only [dropCols, hc, if_false]
      exact List.Sublist.refl cols

theorem dropCols_not_mem (rs : List String) (cols : List String) (r : String)
    (h : r ∈ rs) : r ∉ dropCols rs cols := by
  induction rs generalizing cols with
  | nil => cases h
  | cons a rs ih =>
    rcases List.mem_cons.mp h with rfl | h2
    · intro hin
      have hstep := (dropCols_sublist rs _).subset hin
      by_cases hc : cols.contains r = true
      · rw [if_pos hc] at hstep
        have := (List.mem_filter.mp hstep).2
        simp at this
      · rw [if_neg hc] at hstep
        exact hc (List.elem_eq_true_of_mem hstep)
    · exact ih _ h2

theorem mem_side_by_side_contains (cols : List String) (x : String)
    (h : x ∈ side_by_side_cols cols) : cols.contains x = true := by
  obtain ⟨m, hm, hx⟩ := List.mem_flatten.mp h
  obtain ⟨g, _, rfl⟩ := List.mem_map.mp hm
  exact (List.mem_filter.mp hx).2

/-- **C9**: the final column list is the concatenation of the five priority
groups computed over the post-removal columns; the comparison, key-metric
and raw-response groups are sublists of the first-seen column order (they
preserve it), the kept columns themselves preserve the DataFrame's
first-seen order, and no member of `cols_to_remove` survives into the final
column set.  (The basic and side-by-side groups follow their fixed curated
orders instead — see the counterexample.) -/
theorem c9_column_ordering (rows : List (List (String × JsonVal))) :
    organizeColumns rows =
      basic_cols.filter (fun c => (keptColumns rows).contains c)
      ++ comparison_cols (keptColumns rows)
      ++ side_by_side_cols (keptColumns rows)
      ++ key_metric_cols2 (keptColumns rows)
      ++ full_response_cols (keptColumns rows) ∧
    (keptColumns rows).Sublist (dfColumns rows) ∧
    (comparison_cols (keptColumns rows)).Sublist (keptColumns rows) ∧
    (key_metric_cols2 (keptColumns rows)).Sublist (keptColumns rows) ∧
    (full_response_cols (keptColumns rows)).Sublist (keptColumns rows) ∧
    ∀ c, c ∈ cols_to_remove → c ∉ organizeColumns rows := by
  refine ⟨?_, dropCols_sublist _ _, List.filter_sublist _,
    (List.filter_sublist _).trans (List.filter_sublist _),
    List.filter_sublist _, ?_⟩
  · unfold organizeColumns available_cols ordered_cols
    rw [List.filter_append, List.filter_append, List.filter_append,
      List.filter_append]
    have habsorb : ∀ l : List String,
        (∀ x ∈ l, x ∈ keptColumns rows) →
        l.filter (fun c => (keptColumns rows).contains c) = l := by
      intro l hl
      exact List.filter_eq_self.mpr
        (fun a ha => List.elem_eq_true_of_mem (hl a ha))
    rw [habsorb (comparison_cols (keptColumns rows))
        (fun x hx => (List.mem_filter.mp hx).1),
      habsorb (side_by_side_cols (keptColumns rows))
        (fun x hx => List.mem_of_elem_eq_true
          (mem_side_by_side_contains _ _ hx)),
      habsorb (key_metric_cols2 (keptColumns rows))
        (fun x hx => (List.mem_filter.mp (List.mem_filter.mp hx).1).1),
      habsorb (full_response_cols (keptColumns rows))
        (fun x hx => (List.mem_filter.mp hx).1)]
  · intro c hc hmem
    have hck : c ∈ keptColumns rows :=
      List.mem_of_elem_eq_true (List.mem_filter.mp hmem).2
    exact dropCols_not_mem cols_to_remove (dfColumns rows) c hc hck

set_option maxRecDepth 4000 in
/-- **C9** (counterexample): on the end-to-end scenario's assembled row,
`directions_distance_meters` is first seen before `routes_distance_meters`,
yet the curated side-by-side group emits them in the opposite order — so
the side-by-side group does not preserve first-seen order as the claim
states for every group. -/
theorem c9_counterexample :
    "directions_distance_meters" ∈ keptColumns [scenarioRow] ∧
    "routes_distance_meters" ∈ keptColumns [scenarioRow] ∧
    (keptColumns [scenarioRow]).indexOf "directions_distance_meters"
      < (keptColumns [scenarioRow]).indexOf "routes_distance_meters" ∧
    (organizeColumns [scenarioRow]).indexOf "routes_distance_meters"
      < (organizeColumns [scenarioRow]).indexOf "directions_distance_meters" ∧
    "directions_distance_meters" ∈ organizeColumns [scenarioRow] ∧
    "routes_distance_meters" ∈ organizeColumns [scenarioRow] := by
  decide

/-- **C9** witness: the exclusion clause applied at the scenario rowset and
the removed column `timestamp`. -/
theorem c9_column_ordering_witness :
    "timestamp" ∈ cols_to_remove ∧
    "timestamp" ∉ organizeColumns [scenarioRow] :=
  ⟨by decide,
   (c9_column_ordering [scenarioRow]).2.2.2.2.2 "timestamp" (by decide)⟩
